import Mathlib

set_option maxHeartbeats 1000000

/-!
Shallow embedding of the PlanifyHome floor-plan editor (src/PlanifyHome).

Coordinates are exact rationals standing for Qt's QPointF; graphics items
are records carrying an allocation identity (standing for Python object
identity), a shape, the Qt data slots 0/1 and the ItemIsSelectable flag.
The scene is a state record mirroring CanvasScene's fields, and user
gestures are events folded over a step function that mirrors the pointer
and key handlers of canvas_scene.py.  Door-arc geometry (_door_path) is
embedded separately over the reals, since it uses hypot/atan2.
-/

namespace PlanifyHome

/-- A 2D point with exact rational coordinates, standing for QPointF. -/
structure Point where
  x : ℚ
  y : ℚ
  deriving DecidableEq, Repr

/-- Grid step (constants: GRID_SIZE = 50, see main.py line 11). -/
def GRID_SIZE : ℚ := 50

/-- Python's built-in round: nearest integer, ties to even. -/
def pyRound (q : ℚ) : ℤ :=
  if q - ⌊q⌋ < 1/2 then ⌊q⌋
  else if 1/2 < q - ⌊q⌋ then ⌊q⌋ + 1
  else if ⌊q⌋ % 2 = 0 then ⌊q⌋ else ⌊q⌋ + 1

/-- CanvasScene.snap_to_grid: round each axis independently to the nearest
multiple of GRID_SIZE (canvas_scene.py lines 117-120). -/
def snap_to_grid (pos : Point) : Point :=
  ⟨pyRound (pos.x / GRID_SIZE) * GRID_SIZE, pyRound (pos.y / GRID_SIZE) * GRID_SIZE⟩

/-! Furniture (furniture.py). -/

/-- Minimum width/height per furniture kind, as set in FurnitureItem.__init__
(furniture.py lines 66-76): default 60x40, Table 100x90, Bed 100x80,
Sofa 120x50, Wardrobe 90x60. -/
def min_size (kind : String) : ℚ × ℚ :=
  if kind = "Table" then (100, 90)
  else if kind = "Bed" then (100, 80)
  else if kind = "Sofa" then (120, 50)
  else if kind = "Wardrobe" then (90, 60)
  else (60, 40)

/-- A furniture item: kind tag, scene position of its origin, and the
width/height of its local rect (0, 0, w, h). -/
structure Furniture where
  kind : String
  pos : Point
  w : ℚ
  h : ℚ
  deriving DecidableEq, Repr

/-- FurnitureItem.resize_to (furniture.py lines 89-97): clamp to the kind's
minimum and update the rect only when a dimension changes by more than 0.1. -/
def resize_to (f : Furniture) (nw nh : ℚ) : Furniture :=
  let mw := (min_size f.kind).1
  let mh := (min_size f.kind).2
  let w' := max mw nw
  let h' := max mh nh
  if 1/10 < |w' - f.w| ∨ 1/10 < |h' - f.h| then { f with w := w', h := h' } else f

/-- One corner-handle drag step: ResizeHandle.itemChange clamps the requested
handle position to the parent's minima (ItemPositionChange, furniture.py
lines 49-53), then ItemPositionHasChanged calls resize_to on the resulting
position (lines 54-56). -/
def handle_drag (f : Furniture) (p : Point) : Furniture :=
  let mw := (min_size f.kind).1
  let mh := (min_size f.kind).2
  resize_to f (max mw p.x) (max mh p.y)

/-- A whole sequence of corner-handle drag positions applied in order. -/
def apply_drags (f : Furniture) (ds : List Point) : Furniture :=
  ds.foldl handle_drag f

/-! Wall endpoint handles (canvas_scene.py WallHandle). -/

/-- A wall's geometry: its own position offset and the two line endpoints
(local coordinates of its QLineF). -/
structure WallGeom where
  pos : Point
  p1 : Point
  p2 : Point
  deriving DecidableEq, Repr

/-- WallHandle.itemChange on ItemPositionChange (canvas_scene.py lines 31-43):
snap the requested handle position, write it into the wall line's P1 or P2
according to end_index, pin the wall's own position to the origin, and return
the snapped position as the handle's new position. -/
def wall_handle_drag (w : WallGeom) (end_index : Nat) (value : Point) : WallGeom × Point :=
  let new_pos := snap_to_grid value
  let w' := if end_index = 1 then { w with p1 := new_pos } else { w with p2 := new_pos }
  ({ w' with pos := ⟨0, 0⟩ }, new_pos)

/-! Door swing-arc geometry (CanvasScene._door_path, canvas_scene.py 122-129). -/

/-- Sweep angle in degrees chosen by the _door_ccw toggle flag:
90 if counter-clockwise else -90. -/
def sweep_deg (ccw : Bool) : ℚ := if ccw then 90 else -90

/-- Two-argument arctangent with math.atan2 conventions (range (-pi, pi],
atan2 0 0 = 0), via the complex argument. -/
noncomputable def atan2 (y x : ℝ) : ℝ := Complex.arg ⟨x, y⟩

/-- The circular-sector data drawn by QPainterPath.arcTo in _door_path:
center, radius, start angle in degrees and sweep in degrees. -/
structure ArcSpec where
  cx : ℝ
  cy : ℝ
  radius : ℝ
  startAngle : ℝ
  sweep : ℝ

/-- CanvasScene._door_path: the swing arc for hinge point H and leaf end E
has radius max(1, hypot(dx, dy)), start angle degrees(atan2(-dy, dx)) and
sweep +-90 degrees by the _door_ccw flag; it is centered at the hinge. -/
noncomputable def door_path (ccw : Bool) (hinge endp : Point) : ArcSpec :=
  let dx : ℝ := (endp.x : ℝ) - (hinge.x : ℝ)
  let dy : ℝ := (endp.y : ℝ) - (hinge.y : ℝ)
  let r : ℝ := max 1 (Real.sqrt (dx ^ 2 + dy ^ 2))
  { cx := (hinge.x : ℝ), cy := (hinge.y : ℝ), radius := r,
    startAngle := (180 / Real.pi) * atan2 (-dy) dx,
    sweep := ((sweep_deg ccw : ℚ) : ℝ) }

/-! The scene state machine (CanvasScene of canvas_scene.py). -/

/-- Shape payload of a graphics item in the scene.  A door arc item records
the hinge, leaf end and swing flag its path was last computed from (the
rendered path is door_path of these three). -/
inductive GShape where
  | wallLine (pos p1 p2 : Point) (handles : List Nat)
  | plainLine (p1 p2 : Point) (dashed : Bool)
  | doorArc (hinge endp : Point) (ccw : Bool)
  | furn (kind : String) (pos : Point) (w h : ℚ)
  | ellipseMarker (center : Point) (radius : ℚ)
  deriving DecidableEq, Repr

/-- A graphics object: shape, Qt data slots 0 and 1 (setData), and the
ItemIsSelectable flag. -/
structure GObj where
  shape : GShape
  data0 : Option String
  data1 : Option Nat
  selectable : Bool
  deriving DecidableEq, Repr

/-- The _current_item slot: a single in-progress item (wall or window main
line), or the (line, arc) tuple of an in-progress door. -/
inductive CurItem where
  | one (gid : Nat)
  | two (lineGid arcGid : Nat)
  deriving DecidableEq, Repr

/-- An entry of the permanent item list _items: a single graphics item
(wall, window main line, furniture) or a door's (line, arc) tuple. -/
inductive PlanEntry where
  | single (gid : Nat)
  | pair (lineGid arcGid : Nat)
  deriving DecidableEq, Repr

/-- The graphics-item identities a CurItem tracks, in the order
_exit_drawing_mode removes them. -/
def curGids : CurItem → List Nat
  | .one g => [g]
  | .two l a => [l, a]

/-- The scene state: object store (identity to object), scene membership
(addItem/removeItem), and CanvasScene.__init__'s fields _items,
_wall_end_markers, _current_item, _door_ccw, _door_groups, _next_door_id,
_window_groups, _next_window_id, plus the parent window's _current_mode. -/
structure Scene where
  nextGid : Nat
  objects : List (Nat × GObj)
  inScene : List Nat
  items : List PlanEntry
  wallEndMarkers : List Nat
  curItem : Option CurItem
  doorCcw : Bool
  doorGroups : List (Nat × (Nat × Nat))
  nextDoorId : Nat
  windowGroups : List (Nat × (Nat × Nat × Nat))
  nextWindowId : Nat
  mode : String
  deriving DecidableEq, Repr

/-- The freshly initialized scene (CanvasScene.__init__ under a main window
whose mode starts as Select). -/
def initScene : Scene :=
  { nextGid := 0, objects := [], inScene := [], items := [], wallEndMarkers := [],
    curItem := none, doorCcw := true, doorGroups := [], nextDoorId := 1,
    windowGroups := [], nextWindowId := 1, mode := "Select" }

/-- Association-list lookup by identity/key (Python dict access, first hit). -/
def alookup {β : Type} (k : Nat) : List (Nat × β) → Option β
  | [] => none
  | p :: t => if p.1 = k then some p.2 else alookup k t

/-- Keys of an association list. -/
def keys {β : Type} (l : List (Nat × β)) : List Nat := l.map Prod.fst

/-- Python dict.pop: drop the entry with the given key. -/
def apop {β : Type} (k : Nat) (l : List (Nat × β)) : List (Nat × β) :=
  l.filter (fun p => decide (p.1 ≠ k))

/-- Resolve a graphics identity in the scene's object store. -/
def getObj (s : Scene) (g : Nat) : Option GObj := alookup g s.objects

/-- Create a graphics object and add it to the scene (addItem/addLine/
addEllipse): allocate a fresh identity, register the object, and put it in
the render set.  Returns the new identity. -/
def addObj (s : Scene) (o : GObj) : Scene × Nat :=
  ({ s with nextGid := s.nextGid + 1,
            objects := s.objects ++ [(s.nextGid, o)],
            inScene := s.inScene ++ [s.nextGid] }, s.nextGid)

/-- QGraphicsScene.removeItem: drop the item from the render set (the Python
object itself survives while referenced). -/
def removeItem (s : Scene) (g : Nat) : Scene :=
  { s with inScene := s.inScene.filter (fun x => decide (x ≠ g)) }

/-- Point update of one object in the store (setLine/setPath/attribute writes
on an item found by identity). -/
def updAt (g : Nat) (f : GObj → GObj) (p : Nat × GObj) : Nat × GObj :=
  if p.1 = g then (p.1, f p.2) else p

/-- Apply a point update to the scene's object store. -/
def updObj (s : Scene) (g : Nat) (f : GObj → GObj) : Scene :=
  { s with objects := s.objects.map (updAt g f) }

/-- QGraphicsLineItem line().p1() on the shapes that are line items. -/
def lineP1 : GShape → Option Point
  | .wallLine _ p1 _ _ => some p1
  | .plainLine p1 _ _ => some p1
  | _ => none

/-- QGraphicsLineItem line().p2() on the shapes that are line items. -/
def lineP2 : GShape → Option Point
  | .wallLine _ _ p2 _ => some p2
  | .plainLine _ p2 _ => some p2
  | _ => none

/-- line.setP2 on line items (no-op on shapes that are not line items,
mirroring the isinstance(..., QGraphicsLineItem) guard around its use). -/
def setP2 (e : Point) : GShape → GShape
  | .wallLine pos p1 _ hs => .wallLine pos p1 e hs
  | .plainLine p1 _ d => .plainLine p1 e d
  | sh => sh

/-- line.setLine(x1, y1, x2, y2) on line items. -/
def setLinePts (q1 q2 : Point) : GShape → GShape
  | .wallLine pos _ _ hs => .wallLine pos q1 q2 hs
  | .plainLine _ _ d => .plainLine q1 q2 d
  | sh => sh

/-- CanvasScene.add_wall (lines 139-144): a WallItem at position (0,0) with
the given line, tagged data(0) = "wall", selectable, no handles yet. -/
def add_wall (s : Scene) (start endp : Point) : Scene × Nat :=
  addObj s ⟨.wallLine ⟨0, 0⟩ start endp [], some "wall", none, true⟩

/-- CanvasScene.add_door (lines 146-161): a solid line plus an arc path item
(path computed by _door_path from the current _door_ccw), both selectable and
tagged data(0) = "door", data(1) = the freshly assigned door id; the pair is
registered in _door_groups under that id. -/
def add_door (s : Scene) (start endp : Point) : Scene × (Nat × Nat) :=
  let did := s.nextDoorId
  let r1 := addObj s ⟨.plainLine start endp false, some "door", some did, true⟩
  let r2 := addObj r1.1 ⟨.doorArc start endp s.doorCcw, some "door", some did, true⟩
  ({ r2.1 with nextDoorId := did + 1,
               doorGroups := r2.1.doorGroups ++ [(did, (r1.2, r2.2))] }, (r1.2, r2.2))

/-- CanvasScene.add_window (lines 163-183): a dashed selectable main line
tagged data(0) = "window", plus two length-10 tick lines tagged
data(0) = "window_deco" - horizontal ticks when the window is vertical
(dx = 0), vertical ticks otherwise; all three carry data(1) = the fresh
window id and are registered in _window_groups.  Returns the main line. -/
def add_window (s : Scene) (start endp : Point) : Scene × Nat :=
  let win_id := s.nextWindowId
  let r1 := addObj s ⟨.plainLine start endp true, some "window", some win_id, true⟩
  let len : ℚ := 10
  let dx := endp.x - start.x
  let t1sh : GShape :=
    if dx = 0 then .plainLine ⟨start.x - len/2, start.y⟩ ⟨start.x + len/2, start.y⟩ false
    else .plainLine ⟨start.x, start.y - len/2⟩ ⟨start.x, start.y + len/2⟩ false
  let t2sh : GShape :=
    if dx = 0 then .plainLine ⟨endp.x - len/2, endp.y⟩ ⟨endp.x + len/2, endp.y⟩ false
    else .plainLine ⟨endp.x, endp.y - len/2⟩ ⟨endp.x, endp.y + len/2⟩ false
  let r2 := addObj r1.1 ⟨t1sh, some "window_deco", some win_id, false⟩
  let r3 := addObj r2.1 ⟨t2sh, some "window_deco", some win_id, false⟩
  ({ r3.1 with nextWindowId := win_id + 1,
               windowGroups := r3.1.windowGroups ++ [(win_id, (r1.2, r2.2, r3.2))] }, r1.2)

/-- Shared body of add_bed/add_table/add_sofa/add_wardrobe (lines 185-211):
a FurnitureItem of the given default size centered at the click point. -/
def add_furniture (s : Scene) (kind : String) (w h : ℚ) (center : Point) : Scene × Nat :=
  addObj s ⟨.furn kind ⟨center.x - w/2, center.y - h/2⟩ w h, none, none, true⟩

def add_bed (s : Scene) (center : Point) : Scene × Nat := add_furniture s "Bed" 200 160 center

def add_table (s : Scene) (center : Point) : Scene × Nat := add_furniture s "Table" 200 110 center

def add_sofa (s : Scene) (center : Point) : Scene × Nat := add_furniture s "Sofa" 260 90 center

def add_wardrobe (s : Scene) (center : Point) : Scene × Nat :=
  add_furniture s "Wardrobe" 140 60 center

/-- CanvasScene.clear_wall_end_markers (lines 213-216): remove every marker
from the render set and empty the marker list. -/
def clear_wall_end_markers (s : Scene) : Scene :=
  let s' := s.wallEndMarkers.foldl removeItem s
  { s' with wallEndMarkers := [] }

/-- One green endpoint marker (addEllipse centered at the point, radius 4). -/
def add_marker (s : Scene) (pt : Point) : Scene :=
  let r := addObj s ⟨.ellipseMarker pt 4, none, none, false⟩
  { r.1 with wallEndMarkers := r.1.wallEndMarkers ++ [r.2] }

/-- Markers contributed by one _items entry: two per WallItem (at the wall
line's endpoints), none otherwise. -/
def markers_for_entry (s : Scene) (e : PlanEntry) : Scene :=
  match e with
  | .single g =>
    match getObj s g with
    | some o =>
      match o.shape with
      | .wallLine _ p1 p2 _ => add_marker (add_marker s p1) p2
      | _ => s
    | none => s
  | .pair _ _ => s

/-- CanvasScene.show_wall_end_markers (lines 218-229): clear, then add a
marker at each endpoint of every wall in _items. -/
def show_wall_end_markers (s : Scene) : Scene :=
  let s0 := clear_wall_end_markers s
  s0.items.foldl markers_for_entry s0

/-- The PlanEntry appended to _items when committing _current_item. -/
def entry_of : CurItem → PlanEntry
  | .one g => .single g
  | .two l a => .pair l a

/-- CanvasScene._exit_drawing_mode (lines 231-241): if an item is in
progress, remove it (or each member of the tuple) from the render set, clear
the slot, refresh the wall end markers, and put the window back in Select
mode (the parent widget is always present in the running application). -/
def exit_drawing_mode (s : Scene) : Scene :=
  match s.curItem with
  | none => s
  | some ci =>
    let s1 := (curGids ci).foldl removeItem s
    let s2 := { s1 with curItem := none }
    let s3 := show_wall_end_markers s2
    { s3 with mode := "Select" }

/-- Left-button part of CanvasScene.mousePressEvent (lines 248-294).
hitControl models itemAt returning a ResizeHandle, WallHandle or
FurnitureItem, in which case the event is left to default handling. -/
def left_press (s : Scene) (p : Point) (hitControl : Bool) : Scene :=
  if hitControl then s
  else
    let pos := snap_to_grid p
    if s.mode = "Wall" then
      match s.curItem with
      | none =>
        let r := add_wall s pos pos
        clear_wall_end_markers { r.1 with curItem := some (CurItem.one r.2) }
      | some ci =>
        show_wall_end_markers { s with items := s.items ++ [entry_of ci], curItem := none }
    else if s.mode = "Door" then
      match s.curItem with
      | none =>
        let r := add_door s pos pos
        { r.1 with curItem := some (CurItem.two r.2.1 r.2.2) }
      | some ci => { s with items := s.items ++ [entry_of ci], curItem := none }
    else if s.mode = "Window" then
      match s.curItem with
      | none =>
        let r := add_window s pos pos
        { r.1 with curItem := some (CurItem.one r.2) }
      | some ci => { s with items := s.items ++ [entry_of ci], curItem := none }
    else if s.mode = "Furniture: Bed" then
      let r := add_bed s pos
      { r.1 with items := r.1.items ++ [PlanEntry.single r.2], mode := "Select" }
    else if s.mode = "Furniture: Sofa" then
      let r := add_sofa s pos
      { r.1 with items := r.1.items ++ [PlanEntry.single r.2], mode := "Select" }
    else if s.mode = "Furniture: Table" then
      let r := add_table s pos
      { r.1 with items := r.1.items ++ [PlanEntry.single r.2], mode := "Select" }
    else if s.mode = "Furniture: Wardrobe" then
      let r := add_wardrobe s pos
      { r.1 with items := r.1.items ++ [PlanEntry.single r.2], mode := "Select" }
    else s

/-- CanvasScene.mouseMoveEvent (lines 296-308): while an item is in
progress, write the snapped cursor position into the free endpoint; for a
door also recompute the arc path from the hinge with the current swing
flag. -/
def mouse_move (s : Scene) (p : Point) : Scene :=
  match s.curItem with
  | none => s
  | some (CurItem.one g) =>
    updObj s g (fun o => { o with shape := setP2 (snap_to_grid p) o.shape })
  | some (CurItem.two l a) =>
    let endpt := snap_to_grid p
    match (getObj s l).bind (fun o => lineP1 o.shape) with
    | some hinge =>
      let s1 := updObj s l (fun o => { o with shape := setLinePts hinge endpt o.shape })
      updObj s1 a (fun o => { o with shape := GShape.doorArc hinge endpt s.doorCcw })
    | none => s

/-- CanvasScene.toggle_door_swing (lines 131-137): flip _door_ccw, and if a
door is currently being placed, recompute its arc path from the line's
endpoints with the new flag. -/
def toggle_door_swing (s : Scene) : Scene :=
  let s1 := { s with doorCcw := !s.doorCcw }
  match s1.curItem with
  | some (CurItem.two l a) =>
    match (getObj s1 l).bind (fun o => lineP1 o.shape) with
    | some hinge =>
      match (getObj s1 l).bind (fun o => lineP2 o.shape) with
      | some endpt =>
        updObj s1 a (fun o => { o with shape := GShape.doorArc hinge endpt s1.doorCcw })
      | none => s1
    | none => s1
  | _ => s1

/-- Loop state of delete_selected: the evolving scene, the removed set (in
removal order) and the processed door/window group ids. -/
structure DelSt where
  sc : Scene
  removed : List Nat
  procDoors : List Nat
  procWindows : List Nat
  deriving DecidableEq, Repr

/-- The guarded removal used for composite members: remove the object and
record it only if it is still in the render set. -/
def remove_if_in_scene (st : DelSt) (g : Nat) : DelSt :=
  if g ∈ st.sc.inScene then
    { st with sc := removeItem st.sc g, removed := st.removed ++ [g] }
  else st

/-- One iteration of delete_selected's loop (lines 343-381) on a selected
item: furniture and walls are removed directly (a wall first drops its
handles); otherwise data(0) routes to the window/door group logic, which
pops the group from the map the first time its id is seen and removes every
member still in the scene. -/
def delete_one (st : DelSt) (g : Nat) : DelSt :=
  match getObj st.sc g with
  | none => st
  | some o =>
    match o.shape with
    | .furn _ _ _ _ =>
      { st with sc := removeItem st.sc g, removed := st.removed ++ [g] }
    | .wallLine pos p1 p2 hs =>
      let sc1 := hs.foldl (fun sc h => if h ∈ sc.inScene then removeItem sc h else sc) st.sc
      let sc2 := updObj sc1 g (fun o => { o with shape := .wallLine pos p1 p2 [] })
      { st with sc := removeItem sc2 g, removed := st.removed ++ [g] }
    | _ =>
      if o.data0 = some "window" then
        match o.data1 with
        | some win_id =>
          if win_id ∈ st.procWindows then st
          else
            let st1 := { st with procWindows := st.procWindows ++ [win_id] }
            match alookup win_id st1.sc.windowGroups with
            | some grp =>
              let st2 := { st1 with
                sc := { st1.sc with windowGroups := apop win_id st1.sc.windowGroups } }
              remove_if_in_scene (remove_if_in_scene (remove_if_in_scene st2 grp.1) grp.2.1) grp.2.2
            | none => st1
        | none => st
      else if o.data0 = some "door" then
        match o.data1 with
        | some door_id =>
          if door_id ∈ st.procDoors then st
          else
            let st1 := { st with procDoors := st.procDoors ++ [door_id] }
            match alookup door_id st1.sc.doorGroups with
            | some pr =>
              let st2 := { st1 with
                sc := { st1.sc with doorGroups := apop door_id st1.sc.doorGroups } }
              remove_if_in_scene (remove_if_in_scene st2 pr.1) pr.2
            | none => st1
        | none => st
      else st

/-- Does an _items entry reference one of the removed objects?  (The keep
test of the rebuild loop, lines 383-397.) -/
def entry_hits (e : PlanEntry) (removed : List Nat) : Bool :=
  match e with
  | .single g => decide (g ∈ removed)
  | .pair l a => decide (l ∈ removed) || decide (a ∈ removed)

/-- CanvasScene.delete_selected (lines 336-398) on a given selection (Qt's
selectedItems(): selectable items currently in the scene).  Empty selection
returns immediately; otherwise the loop runs, _items is rebuilt without
entries touching a removed object (when anything was removed), and the wall
end markers are refreshed. -/
def delete_selected (s : Scene) (selected : List Nat) : Scene :=
  if selected = [] then s
  else
    let st := selected.foldl delete_one ⟨s, [], [], []⟩
    let sc1 :=
      if st.removed = [] then st.sc
      else { st.sc with items := st.sc.items.filter (fun e => !(entry_hits e st.removed)) }
    show_wall_end_markers sc1

/-- User-level events driving the scene: palette mode selection, mouse
presses (with the itemAt control-hit flag), pointer moves, Escape,
Delete/Backspace with the current selection, and the door-swing toggle. -/
inductive Event where
  | setMode (label : String)
  | leftPress (p : Point) (hitControl : Bool)
  | rightPress
  | move (p : Point)
  | escapeKey
  | deleteKey (selected : List Nat)
  | toggleSwing
  deriving DecidableEq, Repr

/-- Dispatch of one event, following mousePressEvent / mouseMoveEvent /
keyPressEvent / toggle_door_swing.  A right press cancels only when an item
is in progress (line 245); otherwise it falls through all left-button
branches and does nothing. -/
def step (s : Scene) : Event → Scene
  | .setMode l => { s with mode := l }
  | .leftPress p hit => left_press s p hit
  | .rightPress => if s.curItem = none then s else exit_drawing_mode s
  | .move p => mouse_move s p
  | .escapeKey => exit_drawing_mode s
  | .deleteKey sel => delete_selected s sel
  | .toggleSwing => toggle_door_swing s

/-- Run a sequence of events. -/
def run (s : Scene) (evs : List Event) : Scene := evs.foldl step s

/-- Dot product of the direction vectors of segments a1-a2 and b1-b2; the
segments are perpendicular (as drawn) precisely when it vanishes, for
nondegenerate directions. -/
def dotDir (a1 a2 b1 b2 : Point) : ℚ :=
  (a2.x - a1.x) * (b2.x - b1.x) + (a2.y - a1.y) * (b2.y - b1.y)

/-- The data(1) slot of the object registered under a graphics identity. -/
def objData1 (s : Scene) (g : Nat) : Option Nat := (getObj s g).bind (fun o => o.data1)

/-- Bookkeeping relation between a scene state and a later one obtained by
operations that may add fresh objects and add/remove render-set membership
but leave the drawing bookkeeping alone: the permanent list, current item,
mode, swing flag and both group maps are unchanged, object identities only
grow, previously registered objects keep their records, and any render-set
member is either an old member or a freshly allocated identity. -/
def Extends (u v : Scene) : Prop :=
  v.items = u.items ∧ v.curItem = u.curItem ∧ v.mode = u.mode ∧ v.doorCcw = u.doorCcw ∧
  v.doorGroups = u.doorGroups ∧ v.nextDoorId = u.nextDoorId ∧
  v.windowGroups = u.windowGroups ∧ v.nextWindowId = u.nextWindowId ∧
  u.nextGid ≤ v.nextGid ∧
  (∀ g o, alookup g u.objects = some o → alookup g v.objects = some o) ∧
  (∀ g, g ∈ keys v.objects → g ∈ keys u.objects ∨ (u.nextGid ≤ g ∧ g < v.nextGid)) ∧
  (∀ g, g ∈ v.inScene → g ∈ u.inScene ∨ u.nextGid ≤ g)

/-- Identity freshness: every allocated object identity is below the
allocation counter. -/
def GidInv (s : Scene) : Prop :=
  ∀ g ∈ keys s.objects, g < s.nextGid

/-- Claim C10's invariant: every registered door/window group id is below
the corresponding (independent) counter, no id is registered twice, and
every member of a registered composite carries in data(1) exactly the id
under which the composite is registered. -/
def GroupInv (s : Scene) : Prop :=
  (∀ p ∈ s.doorGroups, p.1 < s.nextDoorId) ∧ (keys s.doorGroups).Nodup ∧
  (∀ p ∈ s.windowGroups, p.1 < s.nextWindowId) ∧ (keys s.windowGroups).Nodup ∧
  (∀ p ∈ s.doorGroups, objData1 s p.2.1 = some p.1 ∧ objData1 s p.2.2 = some p.1) ∧
  (∀ p ∈ s.windowGroups, objData1 s p.2.1 = some p.1 ∧
    objData1 s p.2.2.1 = some p.1 ∧ objData1 s p.2.2.2 = some p.1)

/-- The combined step invariant used to prove GroupInv for reachable
states. -/
def StInv (s : Scene) : Prop := GidInv s ∧ GroupInv s

/-- A committed door composite with group id gid and parts list
[line, arc]: both parts are distinct allocated identities in the render set,
tagged "door"/gid and selectable, and the group map registers exactly this
pair under gid. -/
def DoorComposite (s : Scene) (gid : Nat) (parts : List Nat) : Prop :=
  ∃ l a p1 p2 hp ep c,
    parts = [l, a] ∧ l ≠ a ∧
    getObj s l = some ⟨.plainLine p1 p2 false, some "door", some gid, true⟩ ∧
    getObj s a = some ⟨.doorArc hp ep c, some "door", some gid, true⟩ ∧
    alookup gid s.doorGroups = some (l, a) ∧
    l ∈ s.inScene ∧ a ∈ s.inScene ∧ l < s.nextGid ∧ a < s.nextGid

/-- A committed window composite with group id gid and parts list
[line, tick1, tick2]: the dashed selectable main line tagged "window"/gid
and the two non-selectable ticks tagged "window_deco"/gid, all distinct, in
the render set, and registered as this triple under gid. -/
def WindowComposite (s : Scene) (gid : Nat) (parts : List Nat) : Prop :=
  ∃ l t1 t2 p1 p2 q1 q2 r1 r2,
    parts = [l, t1, t2] ∧ l ≠ t1 ∧ l ≠ t2 ∧ t1 ≠ t2 ∧
    getObj s l = some ⟨.plainLine p1 p2 true, some "window", some gid, true⟩ ∧
    getObj s t1 = some ⟨.plainLine q1 q2 false, some "window_deco", some gid, false⟩ ∧
    getObj s t2 = some ⟨.plainLine r1 r2 false, some "window_deco", some gid, false⟩ ∧
    alookup gid s.windowGroups = some (l, t1, t2) ∧
    l ∈ s.inScene ∧ t1 ∈ s.inScene ∧ t2 ∈ s.inScene ∧
    l < s.nextGid ∧ t1 < s.nextGid ∧ t2 < s.nextGid

/-- The cumulative effect on one object of a list of preview moves (each
move overwrites P2 with the snapped cursor position). -/
def setP2many (ms : List Point) (o : GObj) : GObj :=
  ms.foldl (fun o m => { o with shape := setP2 (snap_to_grid m) o.shape }) o

/-! Theorems.  First the grid-snapping facts used by claim C2. -/

theorem pyRound_intCast (n : ℤ) : pyRound (n : ℚ) = n := by
  norm_num [pyRound, Int.floor_intCast]

theorem pyRound_abs_le (q : ℚ) : |(pyRound q : ℚ) - q| ≤ 1/2 := by
  have h0 : (0:ℚ) ≤ q - ⌊q⌋ := by
    have := Int.floor_le q; linarith
  have h1 : q - ⌊q⌋ < 1 := by
    have := Int.lt_floor_add_one q; linarith
  simp only [pyRound]
  split_ifs with ha hb hc
  · rw [abs_sub_comm, abs_of_nonneg h0]; linarith
  · push_cast
    rw [abs_of_nonneg (by linarith)]; linarith
  · have hr : q - ⌊q⌋ = 1/2 := by linarith
    rw [abs_sub_comm, abs_of_nonneg h0]; linarith
  · have hr : q - ⌊q⌋ = 1/2 := by linarith
    push_cast
    rw [abs_of_nonneg (by linarith)]; linarith

theorem pyRound_nearest (q : ℚ) (k : ℤ) :
    |(pyRound q : ℚ) - q| ≤ |(k : ℚ) - q| := by
  by_cases hk : k = pyRound q
  · rw [hk]
  · have h1 : (1:ℚ) ≤ |(k : ℚ) - (pyRound q : ℚ)| := by
      rw [show ((k:ℚ) - (pyRound q : ℚ)) = ((k - pyRound q : ℤ) : ℚ) by push_cast; ring,
        ← Int.cast_abs]
      exact_mod_cast Int.one_le_abs (sub_ne_zero.mpr hk)
    have h2 := pyRound_abs_le q
    have h3 := abs_sub_le ((k : ℚ)) q ((pyRound q : ℚ))
    have h4 : |q - (pyRound q : ℚ)| = |(pyRound q : ℚ) - q| := abs_sub_comm _ _
    linarith

theorem grid_ne_zero : GRID_SIZE ≠ 0 := by norm_num [GRID_SIZE]

theorem snap_axis_idem (t : ℚ) :
    (pyRound (((pyRound (t / GRID_SIZE) : ℚ) * GRID_SIZE) / GRID_SIZE) : ℚ) * GRID_SIZE
      = (pyRound (t / GRID_SIZE) : ℚ) * GRID_SIZE := by
  rw [mul_div_cancel_right₀ _ grid_ne_zero, pyRound_intCast]

theorem snap_axis_nearest (t : ℚ) (k : ℤ) :
    |(pyRound (t / GRID_SIZE) : ℚ) * GRID_SIZE - t| ≤ |(k : ℚ) * GRID_SIZE - t| := by
  have key : ∀ a : ℚ, a * GRID_SIZE - t = GRID_SIZE * (a - t / GRID_SIZE) := by
    intro a
    simp only [GRID_SIZE]
    ring
  rw [key, key, abs_mul, abs_mul]
  have hpos : (0:ℚ) < |GRID_SIZE| := by norm_num [GRID_SIZE]
  exact (mul_le_mul_left hpos).2 (pyRound_nearest (t / GRID_SIZE) k)

/-- Claim C2: snap_to_grid is idempotent, each coordinate of its result is an
exact integer multiple of the grid step, and each axis is independently the
nearest multiple of the step. -/
theorem snap_to_grid_idem_aligned (p : Point) :
    snap_to_grid (snap_to_grid p) = snap_to_grid p ∧
    (∃ i : ℤ, (snap_to_grid p).x = i * GRID_SIZE) ∧
    (∃ j : ℤ, (snap_to_grid p).y = j * GRID_SIZE) ∧
    (∀ k : ℤ, |(snap_to_grid p).x - p.x| ≤ |(k : ℚ) * GRID_SIZE - p.x|) ∧
    (∀ k : ℤ, |(snap_to_grid p).y - p.y| ≤ |(k : ℚ) * GRID_SIZE - p.y|) := by
  refine ⟨?_, ⟨pyRound (p.x / GRID_SIZE), rfl⟩, ⟨pyRound (p.y / GRID_SIZE), rfl⟩,
    fun k => snap_axis_nearest p.x k, fun k => snap_axis_nearest p.y k⟩
  simp only [snap_to_grid]
  rw [snap_axis_idem p.x, snap_axis_idem p.y]

/-! Furniture resize clamping (claim C6). -/

theorem handle_drag_kind (f : Furniture) (p : Point) : (handle_drag f p).kind = f.kind := by
  simp only [handle_drag, resize_to]
  split_ifs <;> rfl

theorem handle_drag_min (f : Furniture) (p : Point)
    (hw : (min_size f.kind).1 ≤ f.w) (hh : (min_size f.kind).2 ≤ f.h) :
    (min_size f.kind).1 ≤ (handle_drag f p).w ∧ (min_size f.kind).2 ≤ (handle_drag f p).h := by
  simp only [handle_drag, resize_to]
  split_ifs with h
  · exact ⟨le_max_left _ _, le_max_left _ _⟩
  · exact ⟨hw, hh⟩

theorem apply_drags_min (f : Furniture) (ds : List Point)
    (hw : (min_size f.kind).1 ≤ f.w) (hh : (min_size f.kind).2 ≤ f.h) :
    (min_size (apply_drags f ds).kind).1 ≤ (apply_drags f ds).w ∧
    (min_size (apply_drags f ds).kind).2 ≤ (apply_drags f ds).h ∧
    (apply_drags f ds).kind = f.kind := by
  induction ds generalizing f with
  | nil => exact ⟨hw, hh, rfl⟩
  | cons d ds ih =>
    have hk := handle_drag_kind f d
    have hm := handle_drag_min f d hw hh
    have := ih (handle_drag f d) (hk ▸ hm.1) (hk ▸ hm.2)
    simpa [apply_drags, List.foldl_cons, this.2.2, hk] using this

/-- Claim C6: the kind-specific minimum sizes are Bed 100x80, Sofa 120x50,
Table 100x90, Wardrobe 90x60 and 60x40 for any other kind, and no sequence of
corner-handle drags ever takes a furniture item's width or height below its
kind's minimum. -/
theorem furniture_resize_min (f : Furniture) (ds : List Point)
    (hw : (min_size f.kind).1 ≤ f.w) (hh : (min_size f.kind).2 ≤ f.h) :
    (min_size "Bed" = (100, 80) ∧ min_size "Sofa" = (120, 50) ∧
      min_size "Table" = (100, 90) ∧ min_size "Wardrobe" = (90, 60) ∧
      (∀ k : String, k ∉ (["Table", "Bed", "Sofa", "Wardrobe"] : List String) →
        min_size k = (60, 40))) ∧
    (min_size f.kind).1 ≤ (apply_drags f ds).w ∧
    (min_size f.kind).2 ≤ (apply_drags f ds).h := by
  have h := apply_drags_min f ds hw hh
  refine ⟨⟨by simp [min_size], by simp [min_size], by simp [min_size],
    by simp [min_size], ?_⟩, h.2.2 ▸ h.1, h.2.2 ▸ h.2.1⟩
  intro k hk
  simp only [List.mem_cons, List.not_mem_nil, or_false, not_or] at hk
  simp [min_size, hk.1, hk.2.1, hk.2.2.1, hk.2.2.2]

theorem furniture_resize_min_witness :
    (min_size (Furniture.mk "Table" ⟨0, 0⟩ 200 110).kind).1 ≤ 200 ∧
    (min_size (Furniture.mk "Table" ⟨0, 0⟩ 200 110).kind).2 ≤ 110 ∧
    (min_size "Table").1 ≤
      (apply_drags (Furniture.mk "Table" ⟨0, 0⟩ 200 110) [⟨10, 10⟩, ⟨-5, 300⟩]).w ∧
    (min_size "Table").2 ≤
      (apply_drags (Furniture.mk "Table" ⟨0, 0⟩ 200 110) [⟨10, 10⟩, ⟨-5, 300⟩]).h := by
  have h := furniture_resize_min (Furniture.mk "Table" ⟨0, 0⟩ 200 110) [⟨10, 10⟩, ⟨-5, 300⟩]
    (by decide) (by decide)
  exact ⟨by decide, by decide, h.2.1, h.2.2⟩

/-! Wall endpoint handle drags (claim C7). -/

/-- Claim C7: dragging a wall endpoint handle redirects the handle to the
snapped position, writes that snapped position into the dragged endpoint
(leaving the other endpoint untouched), and keeps the wall body anchored at
the origin. -/
theorem wall_handle_drag_snapped (w : WallGeom) (i : Nat) (v : Point)
    (hpos : w.pos = ⟨0, 0⟩) :
    (wall_handle_drag w i v).2 = snap_to_grid v ∧
    (wall_handle_drag w i v).1.pos = w.pos ∧
    (i = 1 → (wall_handle_drag w i v).1.p1 = snap_to_grid v ∧
      (wall_handle_drag w i v).1.p2 = w.p2) ∧
    (i ≠ 1 → (wall_handle_drag w i v).1.p2 = snap_to_grid v ∧
      (wall_handle_drag w i v).1.p1 = w.p1) := by
  by_cases h : i = 1
  · subst h
    refine ⟨rfl, ?_, fun _ => ⟨rfl, rfl⟩, fun hne => absurd rfl hne⟩
    rw [hpos]
    rfl
  · refine ⟨?_, ?_, fun h1 => absurd h1 h, fun _ => ⟨?_, ?_⟩⟩ <;>
      simp [wall_handle_drag, if_neg h, hpos]

theorem wall_handle_drag_snapped_witness :
    (wall_handle_drag ⟨⟨0, 0⟩, ⟨0, 0⟩, ⟨50, 0⟩⟩ 2 ⟨203, 9⟩).2 = snap_to_grid ⟨203, 9⟩ ∧
    (wall_handle_drag ⟨⟨0, 0⟩, ⟨0, 0⟩, ⟨50, 0⟩⟩ 2 ⟨203, 9⟩).1.pos
      = (WallGeom.mk ⟨0, 0⟩ ⟨0, 0⟩ ⟨50, 0⟩).pos ∧
    ((2 : Nat) = 1 → (wall_handle_drag ⟨⟨0, 0⟩, ⟨0, 0⟩, ⟨50, 0⟩⟩ 2 ⟨203, 9⟩).1.p1
        = snap_to_grid ⟨203, 9⟩ ∧
      (wall_handle_drag ⟨⟨0, 0⟩, ⟨0, 0⟩, ⟨50, 0⟩⟩ 2 ⟨203, 9⟩).1.p2
        = (WallGeom.mk ⟨0, 0⟩ ⟨0, 0⟩ ⟨50, 0⟩).p2) ∧
    ((2 : Nat) ≠ 1 → (wall_handle_drag ⟨⟨0, 0⟩, ⟨0, 0⟩, ⟨50, 0⟩⟩ 2 ⟨203, 9⟩).1.p2
        = snap_to_grid ⟨203, 9⟩ ∧
      (wall_handle_drag ⟨⟨0, 0⟩, ⟨0, 0⟩, ⟨50, 0⟩⟩ 2 ⟨203, 9⟩).1.p1
        = (WallGeom.mk ⟨0, 0⟩ ⟨0, 0⟩ ⟨50, 0⟩).p1) :=
  wall_handle_drag_snapped ⟨⟨0, 0⟩, ⟨0, 0⟩, ⟨50, 0⟩⟩ 2 ⟨203, 9⟩ rfl

/-! Door swing-arc geometry (claim C5). -/

/-- Claim C5: the swing arc is centered at the hinge with radius
max(1, distance(H, E)) and start angle degrees(atan2(-dy, dx)); its sweep is
exactly +90 or -90 degrees according to the swing toggle, and flipping the
toggle for unchanged endpoints negates the sweep while keeping the center,
radius and start angle; the scene's toggle event flips exactly that flag. -/
theorem door_path_sweep_toggle (ccw : Bool) (hinge endp : Point) :
    (door_path ccw hinge endp).radius =
      max 1 (Real.sqrt (((endp.x : ℝ) - (hinge.x : ℝ)) ^ 2
        + ((endp.y : ℝ) - (hinge.y : ℝ)) ^ 2)) ∧
    (door_path ccw hinge endp).cx = (hinge.x : ℝ) ∧
    (door_path ccw hinge endp).cy = (hinge.y : ℝ) ∧
    (door_path ccw hinge endp).startAngle =
      (180 / Real.pi) * atan2 (-((endp.y : ℝ) - (hinge.y : ℝ)))
        ((endp.x : ℝ) - (hinge.x : ℝ)) ∧
    (door_path ccw hinge endp).sweep = (if ccw then (90 : ℝ) else -90) ∧
    |(door_path ccw hinge endp).sweep| = 90 ∧
    (door_path (!ccw) hinge endp).cx = (door_path ccw hinge endp).cx ∧
    (door_path (!ccw) hinge endp).cy = (door_path ccw hinge endp).cy ∧
    (door_path (!ccw) hinge endp).radius = (door_path ccw hinge endp).radius ∧
    (door_path (!ccw) hinge endp).startAngle = (door_path ccw hinge endp).startAngle ∧
    (door_path (!ccw) hinge endp).sweep = -(door_path ccw hinge endp).sweep ∧
    (∀ s : Scene, (toggle_door_swing s).doorCcw = !s.doorCcw) := by
  refine ⟨rfl, rfl, rfl, rfl, ?_, ?_, rfl, rfl, rfl, rfl, ?_, ?_⟩
  · cases ccw <;> norm_num [door_path, sweep_deg]
  · cases ccw <;> norm_num [door_path, sweep_deg]
  · cases ccw <;> norm_num [door_path, sweep_deg]
  · intro s
    simp only [toggle_door_swing]
    split <;> try rfl
    split <;> try rfl
    split <;> rfl

/-! Association-list lemmas. -/

theorem alookup_append {β : Type} (l₁ l₂ : List (Nat × β)) (k : Nat) :
    alookup k (l₁ ++ l₂) = (alookup k l₁).or (alookup k l₂) := by
  induction l₁ with
  | nil => simp [alookup]
  | cons p t ih =>
    by_cases h : p.1 = k
    · simp [alookup, h]
    · simp [alookup, h, ih]

theorem alookup_eq_none {β : Type} {l : List (Nat × β)} {k : Nat} (h : k ∉ keys l) :
    alookup k l = none := by
  induction l with
  | nil => rfl
  | cons p t ih =>
    simp only [keys, List.map_cons, List.mem_cons, not_or] at h
    simp only [alookup]
    rw [if_neg (fun he => h.1 he.symm)]
    exact ih (by simpa [keys] using h.2)

theorem alookup_append_some {β : Type} {l₁ : List (Nat × β)} {k : Nat} {v : β}
    (l₂ : List (Nat × β)) (h : alookup k l₁ = some v) :
    alookup k (l₁ ++ l₂) = some v := by
  rw [alookup_append, h]; rfl

theorem alookup_append_of_not_mem {β : Type} {l₁ : List (Nat × β)} {k : Nat}
    (l₂ : List (Nat × β)) (h : k ∉ keys l₁) :
    alookup k (l₁ ++ l₂) = alookup k l₂ := by
  rw [alookup_append, alookup_eq_none h]; rfl

theorem keys_append {β : Type} (l₁ l₂ : List (Nat × β)) :
    keys (l₁ ++ l₂) = keys l₁ ++ keys l₂ := by
  simp [keys]

theorem updAt_fst (g : Nat) (f : GObj → GObj) (p : Nat × GObj) : (updAt g f p).1 = p.1 := by
  unfold updAt
  split <;> rfl

theorem keys_map_updAt (g : Nat) (f : GObj → GObj) (l : List (Nat × GObj)) :
    keys (l.map (updAt g f)) = keys l := by
  simp only [keys, List.map_map]
  exact List.map_congr_left (fun p _ => updAt_fst g f p)

theorem alookup_map_updAt (g : Nat) (f : GObj → GObj) (l : List (Nat × GObj)) (k : Nat) :
    alookup k (l.map (updAt g f)) =
      if k = g then (alookup k l).map f else alookup k l := by
  induction l with
  | nil => by_cases h : k = g <;> simp [alookup, h]
  | cons p t ih =>
    rw [List.map_cons]
    by_cases h1 : p.1 = g
    · have hu : updAt g f p = (p.1, f p.2) := by simp [updAt, h1]
      rw [hu]
      by_cases h2 : p.1 = k
      · have hk : k = g := h2 ▸ h1
        simp [alookup, h2, hk]
      · simp only [alookup, if_neg h2]
        rw [ih]
    · have hu : updAt g f p = p := by simp [updAt, h1]
      rw [hu]
      by_cases h2 : p.1 = k
      · have hk : ¬(k = g) := by rw [← h2]; exact h1
        simp [alookup, h2, hk]
      · simp only [alookup, if_neg h2]
        rw [ih]

theorem mem_keys_apop {β : Type} (k x : Nat) (l : List (Nat × β)) :
    x ∈ keys (apop k l) ↔ x ∈ keys l ∧ x ≠ k := by
  simp only [keys, apop, List.mem_map, List.mem_filter]
  constructor
  · rintro ⟨p, ⟨hp, hpk⟩, rfl⟩
    simp only [decide_eq_true_eq] at hpk
    exact ⟨⟨p, hp, rfl⟩, hpk⟩
  · rintro ⟨⟨p, hp, rfl⟩, hxk⟩
    exact ⟨p, ⟨hp, by simpa using hxk⟩, rfl⟩

theorem apop_sublist {β : Type} (k : Nat) (l : List (Nat × β)) :
    ∀ p ∈ apop k l, p ∈ l := by
  intro p hp
  exact (List.mem_filter.1 hp).1

theorem nodup_keys_apop {β : Type} (k : Nat) (l : List (Nat × β))
    (h : (keys l).Nodup) : (keys (apop k l)).Nodup := by
  have hs : (apop k l).Sublist l := List.filter_sublist l
  exact List.Nodup.sublist (hs.map Prod.fst) h

/-! Field bookkeeping for removeItem folds, markers and addObj. -/

theorem foldl_removeItem_fields (l : List Nat) (s : Scene) :
    (l.foldl removeItem s).objects = s.objects ∧
    (l.foldl removeItem s).items = s.items ∧
    (l.foldl removeItem s).curItem = s.curItem ∧
    (l.foldl removeItem s).mode = s.mode ∧
    (l.foldl removeItem s).doorCcw = s.doorCcw ∧
    (l.foldl removeItem s).doorGroups = s.doorGroups ∧
    (l.foldl removeItem s).nextDoorId = s.nextDoorId ∧
    (l.foldl removeItem s).windowGroups = s.windowGroups ∧
    (l.foldl removeItem s).nextWindowId = s.nextWindowId ∧
    (l.foldl removeItem s).nextGid = s.nextGid ∧
    (l.foldl removeItem s).wallEndMarkers = s.wallEndMarkers := by
  induction l generalizing s with
  | nil => exact ⟨rfl, rfl, rfl, rfl, rfl, rfl, rfl, rfl, rfl, rfl, rfl⟩
  | cons g t ih => exact ih (removeItem s g)

theorem foldl_removeItem_mem (l : List Nat) (s : Scene) (x : Nat) :
    x ∈ (l.foldl removeItem s).inScene ↔ x ∈ s.inScene ∧ x ∉ l := by
  induction l generalizing s with
  | nil => simp
  | cons g t ih =>
    rw [List.foldl_cons, ih]
    simp only [removeItem, List.mem_filter, decide_eq_true_eq, List.mem_cons]
    tauto

/-! The Extends relation and its closure properties. -/

theorem extends_refl (s : Scene) : Extends s s :=
  ⟨rfl, rfl, rfl, rfl, rfl, rfl, rfl, rfl, le_refl _, fun _ _ h => h,
    fun _ hg => Or.inl hg, fun _ hg => Or.inl hg⟩

theorem extends_trans {s t u : Scene} (h1 : Extends s t) (h2 : Extends t u) : Extends s u := by
  obtain ⟨i1, c1, m1, d1, dg1, nd1, wg1, nw1, g1, lo1, k1, sc1⟩ := h1
  obtain ⟨i2, c2, m2, d2, dg2, nd2, wg2, nw2, g2, lo2, k2, sc2⟩ := h2
  refine ⟨i2.trans i1, c2.trans c1, m2.trans m1, d2.trans d1, dg2.trans dg1, nd2.trans nd1,
    wg2.trans wg1, nw2.trans nw1, g1.trans g2, fun g o h => lo2 g o (lo1 g o h), ?_, ?_⟩
  · intro g hg
    rcases k2 g hg with h | ⟨hge, hlt⟩
    · rcases k1 g h with h' | ⟨hge', hlt'⟩
      · exact Or.inl h'
      · exact Or.inr ⟨hge', hlt'.trans_le g2⟩
    · exact Or.inr ⟨g1.trans hge, hlt⟩
  · intro g hg
    rcases sc2 g hg with h | hge
    · rcases sc1 g h with h' | hge'
      · exact Or.inl h'
      · exact Or.inr hge'
    · exact Or.inr (g1.trans hge)

theorem extends_clear (s : Scene) : Extends s (clear_wall_end_markers s) := by
  have hf := foldl_removeItem_fields s.wallEndMarkers s
  refine ⟨hf.2.1, hf.2.2.1, hf.2.2.2.1, hf.2.2.2.2.1, hf.2.2.2.2.2.1, hf.2.2.2.2.2.2.1,
    hf.2.2.2.2.2.2.2.1, hf.2.2.2.2.2.2.2.2.1, le_of_eq hf.2.2.2.2.2.2.2.2.2.1.symm,
    fun g o h => by rw [clear_wall_end_markers]; exact hf.1.symm ▸ h, ?_, ?_⟩
  · intro g hg
    rw [clear_wall_end_markers] at hg
    simp only at hg
    rw [show keys ((s.wallEndMarkers.foldl removeItem s).objects) = keys s.objects by
      rw [hf.1]] at hg
    exact Or.inl hg
  · intro g hg
    rw [clear_wall_end_markers] at hg
    simp only at hg
    exact Or.inl ((foldl_removeItem_mem s.wallEndMarkers s g).1 hg).1

theorem extends_add_marker (s : Scene) (pt : Point) : Extends s (add_marker s pt) := by
  refine ⟨rfl, rfl, rfl, rfl, rfl, rfl, rfl, rfl, Nat.le_succ _, ?_, ?_, ?_⟩
  · intro g o h
    exact alookup_append_some _ h
  · intro g hg
    rw [add_marker] at hg
    simp only [addObj] at hg
    rw [keys_append] at hg
    rcases List.mem_append.1 hg with h | h
    · exact Or.inl h
    · simp only [keys, List.map_cons, List.map_nil, List.mem_singleton] at h
      exact Or.inr ⟨le_of_eq h.symm, by rw [h]; exact Nat.lt_succ_self _⟩
  · intro g hg
    rw [add_marker] at hg
    simp only [addObj] at hg
    rcases List.mem_append.1 hg with h | h
    · exact Or.inl h
    · simp only [List.mem_singleton] at h
      exact Or.inr (le_of_eq h.symm)

theorem extends_markers_for_entry (s : Scene) (e : PlanEntry) :
    Extends s (markers_for_entry s e) := by
  cases e with
  | single g =>
    rcases hobj : getObj s g with _ | o
    · simp only [markers_for_entry, hobj]
      exact extends_refl s
    · rcases hsh : o.shape with ⟨pos, p1, p2, hs⟩ | _ | _ | _ | _ <;>
        simp only [markers_for_entry, hobj, hsh] <;>
        first
          | exact extends_trans (extends_add_marker s _) (extends_add_marker _ _)
          | exact extends_refl s
  | pair l a =>
    simp only [markers_for_entry]
    exact extends_refl s

theorem extends_foldl_markers (es : List PlanEntry) (u : Scene) :
    Extends u (es.foldl markers_for_entry u) := by
  induction es generalizing u with
  | nil => exact extends_refl u
  | cons e t ih =>
    exact extends_trans (extends_markers_for_entry u e) (ih (markers_for_entry u e))

theorem extends_show (s : Scene) : Extends s (show_wall_end_markers s) := by
  rw [show_wall_end_markers]
  exact extends_trans (extends_clear s)
    (extends_foldl_markers (clear_wall_end_markers s).items (clear_wall_end_markers s))

/-! Cancellation (claim C3). -/

theorem cancel_exit (s : Scene) (ci : CurItem)
    (hcur : s.curItem = some ci)
    (hlt : ∀ g ∈ curGids ci, g < s.nextGid) :
    (exit_drawing_mode s).curItem = none ∧ (exit_drawing_mode s).mode = "Select" ∧
    (exit_drawing_mode s).items = s.items ∧
    ∀ g ∈ curGids ci, g ∉ (exit_drawing_mode s).inScene := by
  simp only [exit_drawing_mode, hcur]
  have hf := foldl_removeItem_fields (curGids ci) s
  obtain ⟨hi, hc, hm, hd, hdg, hnd, hwg, hnw, hg, hlo, hk, hsc⟩ :=
    extends_show { (curGids ci).foldl removeItem s with curItem := none }
  refine ⟨?_, ?_, ?_, ?_⟩
  · show (show_wall_end_markers _).curItem = none
    rw [hc]
  · trivial
  · show (show_wall_end_markers _).items = s.items
    rw [hi]
    exact hf.2.1
  · intro g hgci hmem
    have hmem3 : g ∈ (show_wall_end_markers
        { (curGids ci).foldl removeItem s with curItem := none }).inScene := hmem
    rcases hsc g hmem3 with h | h
    · exact ((foldl_removeItem_mem (curGids ci) s g).1 h).2 hgci
    · have h2 : ({ (curGids ci).foldl removeItem s with curItem := none } : Scene).nextGid
          = s.nextGid := hf.2.2.2.2.2.2.2.2.2.1
      have h3 := hlt g hgci
      omega

/-- Claim C3 (amended): canceling an in-progress placement with right-click
or Escape clears the in-progress slot, removes the tracked in-progress
item(s) (the wall item, the door's line and arc, or the window's main line)
from the render set, leaves the permanent item list unchanged, and returns
the mode to Select.  (As the counterexample shows, a window's two tick
marks are not tracked by the slot and stay in the render set.) -/
theorem cancel_placement_tracked (s : Scene) (ci : CurItem) (ev : Event)
    (hcur : s.curItem = some ci)
    (hev : ev = Event.rightPress ∨ ev = Event.escapeKey)
    (hlt : ∀ g ∈ curGids ci, g < s.nextGid) :
    (run s [ev]).curItem = none ∧ (run s [ev]).mode = "Select" ∧
    (run s [ev]).items = s.items ∧
    ∀ g ∈ curGids ci, g ∉ (run s [ev]).inScene := by
  have key := cancel_exit s ci hcur hlt
  rcases hev with rfl | rfl
  · have hne : ¬(s.curItem = none) := by rw [hcur]; simp
    simp only [run, List.foldl_cons, List.foldl_nil, step, if_neg hne]
    exact key
  · simp only [run, List.foldl_cons, List.foldl_nil, step]
    exact key

theorem cancel_placement_tracked_witness :
    (run (run initScene [Event.setMode "Door", Event.leftPress ⟨0, 0⟩ false])
        [Event.rightPress]).curItem = none ∧
    (run (run initScene [Event.setMode "Door", Event.leftPress ⟨0, 0⟩ false])
        [Event.rightPress]).mode = "Select" ∧
    (run (run initScene [Event.setMode "Door", Event.leftPress ⟨0, 0⟩ false])
        [Event.rightPress]).items
      = (run initScene [Event.setMode "Door", Event.leftPress ⟨0, 0⟩ false]).items ∧
    ∀ g ∈ curGids (CurItem.two 0 1),
      g ∉ (run (run initScene [Event.setMode "Door", Event.leftPress ⟨0, 0⟩ false])
        [Event.rightPress]).inScene :=
  cancel_placement_tracked (run initScene [Event.setMode "Door", Event.leftPress ⟨0, 0⟩ false])
    (CurItem.two 0 1) Event.rightPress (by with_unfolding_all decide) (Or.inl rfl)
    (by with_unfolding_all decide)

/-- Claim C3 counterexample: with a window placement in progress (one click
in Window mode at the origin), the in-progress composite's two tick parts
(identities 1 and 2, tagged "window_deco" with the window's group id 1)
remain in the render set after a right-click cancel, even though the cancel
cleared the slot and returned to Select mode. -/
theorem cancel_window_ticks_cex :
    (run initScene [Event.setMode "Window", Event.leftPress ⟨0, 0⟩ false]).curItem
      = some (CurItem.one 0) ∧
    getObj (run initScene [Event.setMode "Window", Event.leftPress ⟨0, 0⟩ false]) 1 =
      some ⟨GShape.plainLine ⟨-5, 0⟩ ⟨5, 0⟩ false, some "window_deco", some 1, false⟩ ∧
    alookup 1 (run initScene [Event.setMode "Window",
      Event.leftPress ⟨0, 0⟩ false]).windowGroups = some (0, 1, 2) ∧
    (run initScene [Event.setMode "Window", Event.leftPress ⟨0, 0⟩ false,
      Event.rightPress]).curItem = none ∧
    (run initScene [Event.setMode "Window", Event.leftPress ⟨0, 0⟩ false,
      Event.rightPress]).mode = "Select" ∧
    1 ∈ (run initScene [Event.setMode "Window", Event.leftPress ⟨0, 0⟩ false,
      Event.rightPress]).inScene ∧
    2 ∈ (run initScene [Event.setMode "Window", Event.leftPress ⟨0, 0⟩ false,
      Event.rightPress]).inScene := by
  with_unfolding_all decide

/-! No-ops on unmet preconditions (claim C8). -/

/-- Claim C8 (amended): delete with an empty selection is a strict no-op on
the whole state; toggling the door swing with no door being placed changes
no scene item and no other field, but it does flip the persistent
swing-direction flag (which subsequently placed doors use). -/
theorem noop_preconditions (s : Scene)
    (hnd : ∀ l a, s.curItem ≠ some (CurItem.two l a)) :
    delete_selected s [] = s ∧
    toggle_door_swing s = { s with doorCcw := !s.doorCcw } := by
  refine ⟨rfl, ?_⟩
  simp only [toggle_door_swing]

theorem noop_preconditions_witness :
    delete_selected initScene [] = initScene ∧
    toggle_door_swing initScene = { initScene with doorCcw := !initScene.doorCcw } :=
  noop_preconditions initScene (fun _ _ h => Option.noConfusion h)

/-! The two-click wall flow (claim C1). -/

theorem run_append (s : Scene) (l1 l2 : List Event) :
    run s (l1 ++ l2) = run (run s l1) l2 := by
  simp [run, List.foldl_append]

theorem mouse_move_one (t : Scene) (g : Nat) (m : Point)
    (h : t.curItem = some (CurItem.one g)) :
    mouse_move t m = updObj t g (fun o => { o with shape := setP2 (snap_to_grid m) o.shape }) := by
  simp only [mouse_move, h]

theorem map_updAt_comp (g : Nat) (f1 f2 : GObj → GObj) (l : List (Nat × GObj)) :
    (l.map (updAt g f1)).map (updAt g f2) = l.map (updAt g (fun o => f2 (f1 o))) := by
  rw [List.map_map]
  apply List.map_congr_left
  intro p _
  by_cases h : p.1 = g <;> simp [updAt, h]

theorem map_updAt_not_mem (g : Nat) (f : GObj → GObj) (l : List (Nat × GObj))
    (h : g ∉ keys l) : l.map (updAt g f) = l := by
  induction l with
  | nil => rfl
  | cons p t ih =>
    simp only [keys, List.map_cons, List.mem_cons, not_or] at h
    rw [List.map_cons, ih (by simpa [keys] using h.2)]
    have hne : ¬p.1 = g := fun he => h.1 he.symm
    have hp : updAt g f p = p := by
      simp only [updAt]
      rw [if_neg hne]
    rw [hp]

theorem updAt_id (g : Nat) (p : Nat × GObj) : updAt g (fun o => o) p = p := by
  simp only [updAt]
  split <;> rfl

theorem map_updAt_id (g : Nat) (l : List (Nat × GObj)) :
    l.map (updAt g (fun o => o)) = l := by
  rw [List.map_congr_left (fun p _ => updAt_id g p)]
  simp

theorem run_moves (ms : List Point) (t : Scene) (g : Nat)
    (h : t.curItem = some (CurItem.one g)) :
    run t (ms.map Event.move) =
      { t with objects := t.objects.map (updAt g (fun o => setP2many ms o)) } := by
  induction ms generalizing t with
  | nil =>
    show t = _
    have hm : t.objects.map (updAt g (fun o => setP2many [] o)) = t.objects :=
      map_updAt_id g t.objects
    rw [hm]
  | cons m ms ih =>
    show run (mouse_move t m) (ms.map Event.move) = _
    rw [mouse_move_one t g m h]
    rw [ih (updObj t g (fun o => { o with shape := setP2 (snap_to_grid m) o.shape }))
      (by simp [updObj, h])]
    simp only [updObj]
    rw [map_updAt_comp]
    rfl

theorem setP2many_wall (ms : List Point) (pos p1 x : Point) (hs : List Nat)
    (d0 : Option String) (d1 : Option Nat) (sel : Bool) (P2 : Point)
    (hlast : ms.getLast? = some P2) :
    setP2many ms ⟨GShape.wallLine pos p1 x hs, d0, d1, sel⟩ =
      ⟨GShape.wallLine pos p1 (snap_to_grid P2) hs, d0, d1, sel⟩ := by
  induction ms generalizing x with
  | nil => cases hlast
  | cons m t ih =>
    rcases t with _ | ⟨m2, t2⟩
    · simp only [List.getLast?_singleton, Option.some.injEq] at hlast
      subst hlast
      rfl
    · rw [List.getLast?_cons_cons] at hlast
      show setP2many (m2 :: t2) ⟨GShape.wallLine pos p1 (snap_to_grid m) hs, d0, d1, sel⟩ = _
      exact ih (snap_to_grid m) hlast

/-- Claim C1: in Wall mode with nothing in progress, a first left-click at
P1, any nonempty sequence of preview moves ending at P2, and a second
left-click (anywhere) commit exactly one new wall into the permanent item
list, whose endpoints are snap_to_grid P1 and snap_to_grid P2 — never the
raw coordinates — and leave no item in progress. -/
theorem wall_two_click_snapped (s : Scene) (P1 P2 q : Point) (ms : List Point)
    (hmode : s.mode = "Wall") (hcur : s.curItem = none)
    (hwf : ∀ g ∈ keys s.objects, g < s.nextGid)
    (hlast : ms.getLast? = some P2) :
    (run s (Event.leftPress P1 false :: (ms.map Event.move ++ [Event.leftPress q false]))).items
        = s.items ++ [PlanEntry.single s.nextGid] ∧
    getObj (run s (Event.leftPress P1 false :: (ms.map Event.move ++ [Event.leftPress q false])))
        s.nextGid =
      some ⟨GShape.wallLine ⟨0, 0⟩ (snap_to_grid P1) (snap_to_grid P2) [],
        some "wall", none, true⟩ ∧
    (run s (Event.leftPress P1 false ::
      (ms.map Event.move ++ [Event.leftPress q false]))).curItem = none := by
  have hg : s.nextGid ∉ keys s.objects := fun hmem => lt_irrefl _ (hwf _ hmem)
  -- the state after the first click
  have e1 : step s (Event.leftPress P1 false) = clear_wall_end_markers
      { s with nextGid := s.nextGid + 1,
               objects := s.objects ++
                 [(s.nextGid, ⟨GShape.wallLine ⟨0, 0⟩ (snap_to_grid P1) (snap_to_grid P1) [],
                    some "wall", none, true⟩)],
               inScene := s.inScene ++ [s.nextGid],
               curItem := some (CurItem.one s.nextGid) } := by
    simp only [step, left_press, hmode, hcur, add_wall, addObj]
    rfl
  set sB : Scene :=
    { s with nextGid := s.nextGid + 1,
             objects := s.objects ++
               [(s.nextGid, ⟨GShape.wallLine ⟨0, 0⟩ (snap_to_grid P1) (snap_to_grid P1) [],
                  some "wall", none, true⟩)],
             inScene := s.inScene ++ [s.nextGid],
             curItem := some (CurItem.one s.nextGid) } with hsB
  have hfB := foldl_removeItem_fields sB.wallEndMarkers sB
  have hcB : (clear_wall_end_markers sB).curItem = some (CurItem.one s.nextGid) := by
    rw [clear_wall_end_markers]
    exact hfB.2.2.1
  -- the state after the preview moves
  have e2 := run_moves ms (clear_wall_end_markers sB) s.nextGid hcB
  have hobjB : (clear_wall_end_markers sB).objects = sB.objects := by
    rw [clear_wall_end_markers]
    exact hfB.1
  set t2 : Scene := run (clear_wall_end_markers sB) (ms.map Event.move) with ht2
  have hobj2 : t2.objects = s.objects ++
      [(s.nextGid, ⟨GShape.wallLine ⟨0, 0⟩ (snap_to_grid P1) (snap_to_grid P2) [],
         some "wall", none, true⟩)] := by
    rw [e2]
    show ((clear_wall_end_markers sB).objects).map _ = _
    rw [hobjB]
    show (s.objects ++ _).map (updAt s.nextGid (fun o => setP2many ms o)) = _
    rw [List.map_append, map_updAt_not_mem _ _ _ hg]
    rw [show List.map (updAt s.nextGid (fun o => setP2many ms o))
        [(s.nextGid, ⟨GShape.wallLine ⟨0, 0⟩ (snap_to_grid P1) (snap_to_grid P1) [],
           some "wall", none, true⟩)]
      = [(s.nextGid, setP2many ms ⟨GShape.wallLine ⟨0, 0⟩ (snap_to_grid P1) (snap_to_grid P1) [],
           some "wall", none, true⟩)] from by simp [updAt]]
    rw [setP2many_wall ms _ _ _ _ _ _ _ P2 hlast]
  have hcur2 : t2.curItem = some (CurItem.one s.nextGid) := by
    rw [e2]
    exact hcB
  have hmode2 : t2.mode = "Wall" := by
    rw [e2]
    show (clear_wall_end_markers sB).mode = "Wall"
    rw [clear_wall_end_markers]
    show (List.foldl removeItem sB sB.wallEndMarkers).mode = "Wall"
    rw [hfB.2.2.2.1]
    exact hmode
  have hitems2 : t2.items = s.items := by
    rw [e2]
    show (clear_wall_end_markers sB).items = s.items
    rw [clear_wall_end_markers]
    show (List.foldl removeItem sB sB.wallEndMarkers).items = s.items
    rw [hfB.2.1]
  -- the commit click
  set sC : Scene := { t2 with items := t2.items ++ [PlanEntry.single s.nextGid], curItem := none, mode := "Wall" } with hsC
  have e3 : step t2 (Event.leftPress q false) = show_wall_end_markers sC := by
    rw [hsC]
    simp [step, left_press, hmode2, hcur2, entry_of]
  obtain ⟨hi, hc, hm, hd, hdg, hnd, hwg, hnw, hgx, hlo, hk, hsc⟩ := extends_show sC
  have hrun : run s (Event.leftPress P1 false :: (ms.map Event.move ++ [Event.leftPress q false]))
      = show_wall_end_markers sC := by
    show run (step s (Event.leftPress P1 false)) (ms.map Event.move ++ [Event.leftPress q false])
      = _
    rw [e1, run_append, ← ht2]
    show step t2 (Event.leftPress q false) = _
    exact e3
  rw [hrun]
  refine ⟨?_, ?_, ?_⟩
  · rw [hi]
    show t2.items ++ [PlanEntry.single s.nextGid] = _
    rw [hitems2]
  · have hbase : alookup s.nextGid sC.objects =
        some ⟨GShape.wallLine ⟨0, 0⟩ (snap_to_grid P1) (snap_to_grid P2) [],
          some "wall", none, true⟩ := by
      show alookup s.nextGid t2.objects = _
      rw [hobj2, alookup_append_of_not_mem _ hg]
      simp [alookup]
    exact hlo _ _ hbase
  · rw [hc]

theorem wall_two_click_snapped_witness :
    (run (run initScene [Event.setMode "Wall"])
        (Event.leftPress ⟨0, 0⟩ false :: ([Point.mk 203 9].map Event.move
          ++ [Event.leftPress ⟨203, 9⟩ false]))).items
      = (run initScene [Event.setMode "Wall"]).items
        ++ [PlanEntry.single (run initScene [Event.setMode "Wall"]).nextGid] ∧
    getObj (run (run initScene [Event.setMode "Wall"])
        (Event.leftPress ⟨0, 0⟩ false :: ([Point.mk 203 9].map Event.move
          ++ [Event.leftPress ⟨203, 9⟩ false])))
        (run initScene [Event.setMode "Wall"]).nextGid =
      some ⟨GShape.wallLine ⟨0, 0⟩ ⟨0, 0⟩ ⟨200, 0⟩ [], some "wall", none, true⟩ ∧
    (run (run initScene [Event.setMode "Wall"])
        (Event.leftPress ⟨0, 0⟩ false :: ([Point.mk 203 9].map Event.move
          ++ [Event.leftPress ⟨203, 9⟩ false]))).curItem = none := by
  have h := wall_two_click_snapped (run initScene [Event.setMode "Wall"]) ⟨0, 0⟩ ⟨203, 9⟩
    ⟨203, 9⟩ [⟨203, 9⟩] (by with_unfolding_all decide) (by with_unfolding_all decide)
    (by with_unfolding_all decide) rfl
  refine ⟨h.1, ?_, h.2.2⟩
  rw [h.2.1]
  with_unfolding_all decide

/-! Window composite geometry (claim C9). -/

theorem alookup_fresh3 (l : List (Nat × GObj)) (n : Nat) (h : ∀ g ∈ keys l, g < n)
    (o1 o2 o3 : GObj) :
    alookup n (((l ++ [(n, o1)]) ++ [(n + 1, o2)]) ++ [(n + 2, o3)]) = some o1 ∧
    alookup (n + 1) (((l ++ [(n, o1)]) ++ [(n + 1, o2)]) ++ [(n + 2, o3)]) = some o2 ∧
    alookup (n + 2) (((l ++ [(n, o1)]) ++ [(n + 1, o2)]) ++ [(n + 2, o3)]) = some o3 := by
  have h0 : alookup n l = none := alookup_eq_none (fun hm => by have := h _ hm; omega)
  have h1 : alookup (n + 1) l = none := alookup_eq_none (fun hm => by have := h _ hm; omega)
  have h2 : alookup (n + 2) l = none := alookup_eq_none (fun hm => by have := h _ hm; omega)
  have e1 : ¬(n = n + 1) := by omega
  have e2 : ¬(n = n + 2) := by omega
  have e3 : ¬(n + 1 = n + 2) := by omega
  have e4 : ¬(n + 1 = n) := by omega
  have e5 : ¬(n + 2 = n) := by omega
  have e6 : ¬(n + 2 = n + 1) := by omega
  refine ⟨?_, ?_, ?_⟩ <;>
    simp [alookup_append, h0, h1, h2, alookup, Option.or, e1, e2, e3, e4, e5, e6]

/-- Claim C9 (amended): add_window creates a dashed main line from S to E
plus two length-10 tick lines, one centered at each endpoint; the ticks are
horizontal when the window is vertical (E.x = S.x) and vertical otherwise,
so a tick is perpendicular to the window segment precisely when the segment
is axis-aligned (for a diagonal window the ticks are not perpendicular). -/
theorem window_composite_geometry (s : Scene) (S E : Point)
    (hwf : ∀ g ∈ keys s.objects, g < s.nextGid) :
    ∃ a1 a2 b1 b2 : Point,
      getObj (add_window s S E).1 s.nextGid =
        some ⟨GShape.plainLine S E true, some "window", some s.nextWindowId, true⟩ ∧
      getObj (add_window s S E).1 (s.nextGid + 1) =
        some ⟨GShape.plainLine a1 a2 false, some "window_deco", some s.nextWindowId, false⟩ ∧
      getObj (add_window s S E).1 (s.nextGid + 2) =
        some ⟨GShape.plainLine b1 b2 false, some "window_deco", some s.nextWindowId, false⟩ ∧
      a1.x + a2.x = 2 * S.x ∧ a1.y + a2.y = 2 * S.y ∧
      b1.x + b2.x = 2 * E.x ∧ b1.y + b2.y = 2 * E.y ∧
      (a2.x - a1.x) ^ 2 + (a2.y - a1.y) ^ 2 = 100 ∧
      (b2.x - b1.x) ^ 2 + (b2.y - b1.y) ^ 2 = 100 ∧
      (E.x - S.x = 0 → a2.y = a1.y ∧ b2.y = b1.y) ∧
      (E.x - S.x ≠ 0 → a2.x = a1.x ∧ b2.x = b1.x) ∧
      (dotDir S E a1 a2 = 0 ↔ (S.x = E.x ∨ S.y = E.y)) ∧
      (dotDir S E b1 b2 = 0 ↔ (S.x = E.x ∨ S.y = E.y)) := by
  by_cases hdx : E.x - S.x = 0
  · refine ⟨⟨S.x - 10/2, S.y⟩, ⟨S.x + 10/2, S.y⟩, ⟨E.x - 10/2, E.y⟩, ⟨E.x + 10/2, E.y⟩,
      ?_, ?_, ?_, by ring, by ring, by ring, by ring, by ring_nf, by ring_nf, ?_, ?_, ?_, ?_⟩
    · simp only [add_window, addObj, if_pos hdx, getObj]
      exact (alookup_fresh3 s.objects s.nextGid hwf _ _ _).1
    · simp only [add_window, addObj, if_pos hdx, getObj]
      exact (alookup_fresh3 s.objects s.nextGid hwf _ _ _).2.1
    · simp only [add_window, addObj, if_pos hdx, getObj]
      exact (alookup_fresh3 s.objects s.nextGid hwf _ _ _).2.2
    · exact fun _ => ⟨rfl, rfl⟩
    · exact fun hne => absurd hdx hne
    · constructor
      · intro _
        exact Or.inl (by linarith [hdx])
      · intro _
        simp only [dotDir]
        ring_nf
        nlinarith [hdx]
    · constructor
      · intro _
        exact Or.inl (by linarith [hdx])
      · intro _
        simp only [dotDir]
        ring_nf
        nlinarith [hdx]
  · refine ⟨⟨S.x, S.y - 10/2⟩, ⟨S.x, S.y + 10/2⟩, ⟨E.x, E.y - 10/2⟩, ⟨E.x, E.y + 10/2⟩,
      ?_, ?_, ?_, by ring, by ring, by ring, by ring, by ring_nf, by ring_nf, ?_, ?_, ?_, ?_⟩
    · simp only [add_window, addObj, if_neg hdx, getObj]
      exact (alookup_fresh3 s.objects s.nextGid hwf _ _ _).1
    · simp only [add_window, addObj, if_neg hdx, getObj]
      exact (alookup_fresh3 s.objects s.nextGid hwf _ _ _).2.1
    · simp only [add_window, addObj, if_neg hdx, getObj]
      exact (alookup_fresh3 s.objects s.nextGid hwf _ _ _).2.2
    · exact fun h0 => absurd h0 hdx
    · exact fun _ => ⟨rfl, rfl⟩
    · have hxne : ¬(S.x = E.x) := fun he => hdx (by rw [he]; ring)
      constructor
      · intro hd
        refine Or.inr ?_
        simp only [dotDir] at hd
        have : (E.y - S.y) * 10 = 0 := by linarith [hd]
        have : E.y - S.y = 0 := by linarith
        linarith
      · rintro (he | he)
        · exact absurd he hxne
        · simp only [dotDir]
          have : E.y - S.y = 0 := by linarith
          nlinarith [this]
    · have hxne : ¬(S.x = E.x) := fun he => hdx (by rw [he]; ring)
      constructor
      · intro hd
        refine Or.inr ?_
        simp only [dotDir] at hd
        have : (E.y - S.y) * 10 = 0 := by linarith [hd]
        have : E.y - S.y = 0 := by linarith
        linarith
      · rintro (he | he)
        · exact absurd he hxne
        · simp only [dotDir]
          have : E.y - S.y = 0 := by linarith
          nlinarith [this]

theorem window_composite_geometry_witness :
    ∃ a1 a2 b1 b2 : Point,
      getObj (add_window initScene ⟨0, 0⟩ ⟨50, 0⟩).1 initScene.nextGid =
        some ⟨GShape.plainLine ⟨0, 0⟩ ⟨50, 0⟩ true, some "window",
          some initScene.nextWindowId, true⟩ ∧
      getObj (add_window initScene ⟨0, 0⟩ ⟨50, 0⟩).1 (initScene.nextGid + 1) =
        some ⟨GShape.plainLine a1 a2 false, some "window_deco",
          some initScene.nextWindowId, false⟩ ∧
      getObj (add_window initScene ⟨0, 0⟩ ⟨50, 0⟩).1 (initScene.nextGid + 2) =
        some ⟨GShape.plainLine b1 b2 false, some "window_deco",
          some initScene.nextWindowId, false⟩ ∧
      a1.x + a2.x = 2 * (Point.mk 0 0).x ∧ a1.y + a2.y = 2 * (Point.mk 0 0).y ∧
      b1.x + b2.x = 2 * (Point.mk 50 0).x ∧ b1.y + b2.y = 2 * (Point.mk 50 0).y ∧
      (a2.x - a1.x) ^ 2 + (a2.y - a1.y) ^ 2 = 100 ∧
      (b2.x - b1.x) ^ 2 + (b2.y - b1.y) ^ 2 = 100 ∧
      ((Point.mk 50 0).x - (Point.mk 0 0).x = 0 → a2.y = a1.y ∧ b2.y = b1.y) ∧
      ((Point.mk 50 0).x - (Point.mk 0 0).x ≠ 0 → a2.x = a1.x ∧ b2.x = b1.x) ∧
      (dotDir ⟨0, 0⟩ ⟨50, 0⟩ a1 a2 = 0 ↔
        ((Point.mk 0 0).x = (Point.mk 50 0).x ∨ (Point.mk 0 0).y = (Point.mk 50 0).y)) ∧
      (dotDir ⟨0, 0⟩ ⟨50, 0⟩ b1 b2 = 0 ↔
        ((Point.mk 0 0).x = (Point.mk 50 0).x ∨ (Point.mk 0 0).y = (Point.mk 50 0).y)) :=
  window_composite_geometry initScene ⟨0, 0⟩ ⟨50, 0⟩ (by intro g hg; cases hg)

/-- Claim C9 counterexample: for the diagonal window (0,0)-(50,50) the code
creates a vertical tick at each endpoint (the dx = 0 branch is not taken),
and a vertical tick is not perpendicular to the diagonal window line: the
direction dot product is 500, not 0. -/
theorem window_tick_not_perpendicular_cex :
    getObj (add_window initScene ⟨0, 0⟩ ⟨50, 50⟩).1 0 =
      some ⟨GShape.plainLine ⟨0, 0⟩ ⟨50, 50⟩ true, some "window", some 1, true⟩ ∧
    getObj (add_window initScene ⟨0, 0⟩ ⟨50, 50⟩).1 1 =
      some ⟨GShape.plainLine ⟨0, -5⟩ ⟨0, 5⟩ false, some "window_deco", some 1, false⟩ ∧
    getObj (add_window initScene ⟨0, 0⟩ ⟨50, 50⟩).1 2 =
      some ⟨GShape.plainLine ⟨50, 45⟩ ⟨50, 55⟩ false, some "window_deco", some 1, false⟩ ∧
    dotDir ⟨0, 0⟩ ⟨50, 50⟩ ⟨0, -5⟩ ⟨0, 5⟩ ≠ 0 := by
  with_unfolding_all decide

/-! Group-aware deletion (claim C4). -/

theorem foldl_delete_one_fixed (rest : List Nat) (st : DelSt)
    (h : ∀ g ∈ rest, delete_one st g = st) :
    rest.foldl delete_one st = st := by
  induction rest with
  | nil => rfl
  | cons g t ih =>
    rw [List.foldl_cons, h g (by simp)]
    exact ih (fun g' hg' => h g' (by simp [hg']))

theorem delete_one_skip_line (st : DelSt) (g did : Nat) (p1 p2 : Point) (d sel : Bool)
    (kind : String) (hk : kind = "window" ∨ kind = "door")
    (ho : getObj st.sc g = some ⟨GShape.plainLine p1 p2 d, some kind, some did, sel⟩)
    (hproc : kind = "door" → did ∈ st.procDoors)
    (hprocw : kind = "window" → did ∈ st.procWindows) :
    delete_one st g = st := by
  rcases hk with rfl | rfl
  · simp [delete_one, ho, hprocw rfl]
  · simp [delete_one, ho, hproc rfl]

theorem delete_one_skip_arc (st : DelSt) (g did : Nat) (hp ep : Point) (c sel : Bool)
    (ho : getObj st.sc g = some ⟨GShape.doorArc hp ep c, some "door", some did, sel⟩)
    (hproc : did ∈ st.procDoors) :
    delete_one st g = st := by
  simp [delete_one, ho, hproc]

theorem delete_first_door (s : Scene) (l a did : Nat) (p1 p2 hp ep : Point) (c : Bool)
    (hl : getObj s l = some ⟨GShape.plainLine p1 p2 false, some "door", some did, true⟩)
    (ha : getObj s a = some ⟨GShape.doorArc hp ep c, some "door", some did, true⟩)
    (hgrp : alookup did s.doorGroups = some (l, a))
    (hlin : l ∈ s.inScene) (hain : a ∈ s.inScene) (hne : l ≠ a)
    (g : Nat) (hgla : g = l ∨ g = a) :
    delete_one ⟨s, [], [], []⟩ g =
      ⟨{ s with doorGroups := apop did s.doorGroups,
                inScene := (s.inScene.filter (fun x => decide (x ≠ l))).filter
                  (fun x => decide (x ≠ a)) },
        [l, a], [did], []⟩ := by
  have hane : a ≠ l := fun he => hne he.symm
  have key : remove_if_in_scene (remove_if_in_scene
      ⟨{ s with doorGroups := apop did s.doorGroups }, [], [did], []⟩ l) a =
      ⟨{ s with doorGroups := apop did s.doorGroups,
                inScene := (s.inScene.filter (fun x => decide (x ≠ l))).filter
                  (fun x => decide (x ≠ a)) },
        [l, a], [did], []⟩ := by
    have h2 : remove_if_in_scene
        ⟨{ s with doorGroups := apop did s.doorGroups }, [], [did], []⟩ l =
        ⟨{ s with doorGroups := apop did s.doorGroups,
                  inScene := s.inScene.filter (fun x => decide (x ≠ l)) }, [l], [did], []⟩ := by
      simp [remove_if_in_scene, removeItem, hlin]
    rw [h2]
    simp [remove_if_in_scene, removeItem, hain, hane]
  have hgobj : getObj s g =
        some ⟨GShape.plainLine p1 p2 false, some "door", some did, true⟩ ∨
      getObj s g = some ⟨GShape.doorArc hp ep c, some "door", some did, true⟩ := by
    rcases hgla with rfl | rfl
    · exact Or.inl hl
    · exact Or.inr ha
  rcases hgobj with hg | hg
  · rw [show delete_one ⟨s, [], [], []⟩ g = remove_if_in_scene (remove_if_in_scene
        ⟨{ s with doorGroups := apop did s.doorGroups }, [], [did], []⟩ l) a from by
      simp [delete_one, hg, hgrp]]
    exact key
  · rw [show delete_one ⟨s, [], [], []⟩ g = remove_if_in_scene (remove_if_in_scene
        ⟨{ s with doorGroups := apop did s.doorGroups }, [], [did], []⟩ l) a from by
      simp [delete_one, hg, hgrp]]
    exact key

theorem delete_first_window (s : Scene) (l t1 t2 wid : Nat)
    (p1 p2 q1 q2 r1 r2 : Point)
    (hl : getObj s l = some ⟨GShape.plainLine p1 p2 true, some "window", some wid, true⟩)
    (hgrp : alookup wid s.windowGroups = some (l, t1, t2))
    (hlin : l ∈ s.inScene) (ht1in : t1 ∈ s.inScene) (ht2in : t2 ∈ s.inScene)
    (hne1 : l ≠ t1) (hne2 : l ≠ t2) (hne3 : t1 ≠ t2) :
    delete_one ⟨s, [], [], []⟩ l =
      ⟨{ s with windowGroups := apop wid s.windowGroups,
                inScene := ((s.inScene.filter (fun x => decide (x ≠ l))).filter
                  (fun x => decide (x ≠ t1))).filter (fun x => decide (x ≠ t2)) },
        [l, t1, t2], [], [wid]⟩ := by
  have ht1l : t1 ≠ l := fun he => hne1 he.symm
  have ht2l : t2 ≠ l := fun he => hne2 he.symm
  have ht2t1 : t2 ≠ t1 := fun he => hne3 he.symm
  rw [show delete_one ⟨s, [], [], []⟩ l = remove_if_in_scene (remove_if_in_scene
      (remove_if_in_scene ⟨{ s with windowGroups := apop wid s.windowGroups }, [], [], [wid]⟩ l)
        t1) t2 from by
    simp [delete_one, hl, hgrp]]
  have h2 : remove_if_in_scene
      ⟨{ s with windowGroups := apop wid s.windowGroups }, [], [], [wid]⟩ l =
      ⟨{ s with windowGroups := apop wid s.windowGroups,
                inScene := s.inScene.filter (fun x => decide (x ≠ l)) }, [l], [], [wid]⟩ := by
    simp [remove_if_in_scene, removeItem, hlin]
  rw [h2]
  have h3 : remove_if_in_scene
      ⟨{ s with windowGroups := apop wid s.windowGroups,
                inScene := s.inScene.filter (fun x => decide (x ≠ l)) }, [l], [], [wid]⟩ t1 =
      ⟨{ s with windowGroups := apop wid s.windowGroups,
                inScene := (s.inScene.filter (fun x => decide (x ≠ l))).filter
                  (fun x => decide (x ≠ t1)) }, [l, t1], [], [wid]⟩ := by
    simp [remove_if_in_scene, removeItem, ht1in, ht1l]
  rw [h3]
  simp [remove_if_in_scene, removeItem, ht2in, ht2l, ht2t1]

/-- Claim C4: for a committed door composite (isDoor = true) or window
composite (isDoor = false) with group id gid and part list parts, invoking
delete with any nonempty selection of its selectable parts removes every
part of the composite from the render set, removes the group id from its
group map, and rebuilds the permanent item list by dropping exactly the
entries that reference a part — so the composite is removed exactly once
even when several sibling parts are selected together. -/
theorem delete_composite (isDoor : Bool) (s : Scene) (gid : Nat) (parts selected : List Nat)
    (hcomp : if isDoor = true then DoorComposite s gid parts
             else WindowComposite s gid parts)
    (hne : selected ≠ [])
    (hsel : ∀ g ∈ selected, g ∈ parts ∧
      ((getObj s g).map (fun o => o.selectable)).getD false = true) :
    (∀ g ∈ parts, g ∉ (delete_selected s selected).inScene) ∧
    gid ∉ (if isDoor = true then keys (delete_selected s selected).doorGroups
           else keys (delete_selected s selected).windowGroups) ∧
    (delete_selected s selected).items =
      s.items.filter (fun e => !(entry_hits e parts)) := by
  rcases selected with _ | ⟨g1, rest⟩
  · exact absurd rfl hne
  cases isDoor
  · -- window composite
    simp only [Bool.false_eq_true, if_false] at hcomp ⊢
    obtain ⟨l, t1, t2, p1, p2, q1, q2, r1, r2, hparts, hne1, hne2, hne3,
      hl, ht1, ht2, hgrp, hlin, ht1in, ht2in, hllt, ht1lt, ht2lt⟩ := hcomp
    subst hparts
    have honly : ∀ g, g ∈ (g1 :: rest) → g = l := by
      intro g hg
      obtain ⟨hmem, hselg⟩ := hsel g hg
      rcases List.mem_cons.1 hmem with rfl | hmem2
      · rfl
      rcases List.mem_cons.1 hmem2 with rfl | hmem3
      · rw [ht1] at hselg
        cases hselg
      rcases List.mem_cons.1 hmem3 with rfl | hmem4
      · rw [ht2] at hselg
        cases hselg
      · cases hmem4
    have hg1 : g1 = l := honly g1 (by simp)
    subst hg1
    set stA : DelSt :=
      ⟨{ s with windowGroups := apop gid s.windowGroups,
                inScene := ((s.inScene.filter (fun x => decide (x ≠ g1))).filter
                  (fun x => decide (x ≠ t1))).filter (fun x => decide (x ≠ t2)) },
        [g1, t1, t2], [], [gid]⟩ with hstA
    have hfirst : delete_one ⟨s, [], [], []⟩ g1 = stA :=
      delete_first_window s g1 t1 t2 gid p1 p2 q1 q2 r1 r2 hl hgrp hlin ht1in ht2in
        hne1 hne2 hne3
    have hrest : ∀ g ∈ rest, delete_one stA g = stA := by
      intro g hg
      have := honly g (by simp [hg])
      subst this
      exact delete_one_skip_line stA g gid p1 p2 true true "window" (Or.inl rfl) hl
        (fun hw => absurd hw (by decide)) (fun _ => by rw [hstA]; simp)
    have hst : (g1 :: rest).foldl delete_one ⟨s, [], [], []⟩ = stA := by
      rw [List.foldl_cons, hfirst]
      exact foldl_delete_one_fixed rest stA hrest
    set sc1 : Scene := { stA.sc with items := stA.sc.items.filter (fun e => !(entry_hits e stA.removed)) } with hsc1
    have hdel : delete_selected s (g1 :: rest) = show_wall_end_markers sc1 := by
      simp only [delete_selected]
      rw [if_neg (by simp), hst, if_neg (by rw [hstA]; simp)]
    rw [hdel]
    obtain ⟨hi, hc, hm, hd, hdg, hnd, hwg, hnw, hgx, hlo, hk, hsc⟩ := extends_show sc1
    refine ⟨?_, ?_, ?_⟩
    · intro g hg hmem
      rcases hsc g hmem with h | h
      · have h2 : g ∈ stA.sc.inScene := h
        rw [hstA] at h2
        simp only [List.mem_filter, decide_eq_true_eq] at h2
        rcases List.mem_cons.1 hg with rfl | hg2
        · exact h2.1.1.2 rfl
        rcases List.mem_cons.1 hg2 with rfl | hg3
        · exact h2.1.2 rfl
        rcases List.mem_cons.1 hg3 with rfl | hg4
        · exact h2.2 rfl
        · cases hg4
      · have h2 : sc1.nextGid = s.nextGid := by rw [hsc1, hstA]
        rw [h2] at h
        rcases List.mem_cons.1 hg with rfl | hg2
        · omega
        rcases List.mem_cons.1 hg2 with rfl | hg3
        · omega
        rcases List.mem_cons.1 hg3 with rfl | hg4
        · omega
        · cases hg4
    · intro hmem
      have h2 : gid ∈ keys (show_wall_end_markers sc1).windowGroups := hmem
      rw [hwg] at h2
      have h3 : gid ∈ keys (apop gid s.windowGroups) := h2
      exact ((mem_keys_apop gid gid s.windowGroups).1 h3).2 rfl
    · rw [hi]
  · -- door composite
    simp only [if_pos rfl] at hcomp ⊢
    obtain ⟨l, a, p1, p2, hp, ep, c, hparts, hnela,
      hl, ha, hgrp, hlin, hain, hllt, halt⟩ := hcomp
    subst hparts
    have honly : ∀ g, g ∈ (g1 :: rest) → g = l ∨ g = a := by
      intro g hg
      obtain ⟨hmem, _⟩ := hsel g hg
      rcases List.mem_cons.1 hmem with rfl | hmem2
      · exact Or.inl rfl
      rcases List.mem_cons.1 hmem2 with rfl | hmem3
      · exact Or.inr rfl
      · cases hmem3
    set stA : DelSt :=
      ⟨{ s with doorGroups := apop gid s.doorGroups,
                inScene := (s.inScene.filter (fun x => decide (x ≠ l))).filter
                  (fun x => decide (x ≠ a)) },
        [l, a], [gid], []⟩ with hstA
    have hfirst : delete_one ⟨s, [], [], []⟩ g1 = stA :=
      delete_first_door s l a gid p1 p2 hp ep c hl ha hgrp hlin hain hnela g1
        (honly g1 (by simp))
    have hrest : ∀ g ∈ rest, delete_one stA g = stA := by
      intro g hg
      rcases honly g (by simp [hg]) with rfl | rfl
      · exact delete_one_skip_line stA g gid p1 p2 false true "door" (Or.inr rfl) hl
          (fun _ => by rw [hstA]; simp) (fun hw => absurd hw (by decide))
      · exact delete_one_skip_arc stA g gid hp ep c true ha (by rw [hstA]; simp)
    have hst : (g1 :: rest).foldl delete_one ⟨s, [], [], []⟩ = stA := by
      rw [List.foldl_cons, hfirst]
      exact foldl_delete_one_fixed rest stA hrest
    set sc1 : Scene := { stA.sc with items := stA.sc.items.filter (fun e => !(entry_hits e stA.removed)) } with hsc1
    have hdel : delete_selected s (g1 :: rest) = show_wall_end_markers sc1 := by
      simp only [delete_selected]
      rw [if_neg (by simp), hst, if_neg (by rw [hstA]; simp)]
    rw [hdel]
    obtain ⟨hi, hc, hm, hd, hdg, hnd, hwg, hnw, hgx, hlo, hk, hsc⟩ := extends_show sc1
    refine ⟨?_, ?_, ?_⟩
    · intro g hg hmem
      rcases hsc g hmem with h | h
      · have h2 : g ∈ stA.sc.inScene := h
        rw [hstA] at h2
        simp only [List.mem_filter, decide_eq_true_eq] at h2
        rcases List.mem_cons.1 hg with rfl | hg2
        · exact h2.1.2 rfl
        rcases List.mem_cons.1 hg2 with rfl | hg3
        · exact h2.2 rfl
        · cases hg3
      · have h2 : sc1.nextGid = s.nextGid := by rw [hsc1, hstA]
        rw [h2] at h
        rcases List.mem_cons.1 hg with rfl | hg2
        · omega
        rcases List.mem_cons.1 hg2 with rfl | hg3
        · omega
        · cases hg3
    · intro hmem
      have h2 : gid ∈ keys (show_wall_end_markers sc1).doorGroups := hmem
      rw [hdg] at h2
      have h3 : gid ∈ keys (apop gid s.doorGroups) := h2
      exact ((mem_keys_apop gid gid s.doorGroups).1 h3).2 rfl
    · rw [hi]

theorem delete_composite_witness :
    (∀ g ∈ [0, 1],
      g ∉ (delete_selected (run initScene [Event.setMode "Door",
        Event.leftPress ⟨0, 0⟩ false, Event.move ⟨50, 0⟩, Event.leftPress ⟨50, 0⟩ false])
        [0, 1]).inScene) ∧
    (1 : Nat) ∉ (if (true : Bool) = true then
        keys (delete_selected (run initScene [Event.setMode "Door",
          Event.leftPress ⟨0, 0⟩ false, Event.move ⟨50, 0⟩, Event.leftPress ⟨50, 0⟩ false])
          [0, 1]).doorGroups
      else keys (delete_selected (run initScene [Event.setMode "Door",
          Event.leftPress ⟨0, 0⟩ false, Event.move ⟨50, 0⟩, Event.leftPress ⟨50, 0⟩ false])
          [0, 1]).windowGroups) ∧
    (delete_selected (run initScene [Event.setMode "Door", Event.leftPress ⟨0, 0⟩ false,
        Event.move ⟨50, 0⟩, Event.leftPress ⟨50, 0⟩ false]) [0, 1]).items =
      (run initScene [Event.setMode "Door", Event.leftPress ⟨0, 0⟩ false,
        Event.move ⟨50, 0⟩, Event.leftPress ⟨50, 0⟩ false]).items.filter
        (fun e => !(entry_hits e [0, 1])) :=
  delete_composite true
    (run initScene [Event.setMode "Door", Event.leftPress ⟨0, 0⟩ false,
      Event.move ⟨50, 0⟩, Event.leftPress ⟨50, 0⟩ false])
    1 [0, 1] [0, 1]
    (by
      refine ⟨0, 1, ⟨0, 0⟩, ⟨50, 0⟩, ⟨0, 0⟩, ⟨50, 0⟩, true, ?_⟩
      with_unfolding_all decide)
    (by simp)
    (by intro g hg; fin_cases hg <;> with_unfolding_all decide)

/-! Group-id freshness invariant over all reachable states (claim C10). -/

theorem objData1_mono {u v : Scene}
    (hlo : ∀ g o, alookup g u.objects = some o → alookup g v.objects = some o)
    (g d : Nat) (hd : objData1 u g = some d) : objData1 v g = some d := by
  unfold objData1 getObj at *
  rcases ho : alookup g u.objects with _ | o
  · rw [ho] at hd
    cases hd
  · rw [ho] at hd
    rw [hlo g o ho]
    exact hd

theorem groupInv_extends {u v : Scene} (h : Extends u v) (hg : GroupInv u) : GroupInv v := by
  obtain ⟨hi, hc, hm, hd, hdg, hnd, hwg, hnw, hgx, hlo, hk, hsc⟩ := h
  obtain ⟨b1, n1, b2, n2, pd, pw⟩ := hg
  refine ⟨?_, ?_, ?_, ?_, ?_, ?_⟩
  · rw [hdg, hnd]
    exact b1
  · rw [hdg]
    exact n1
  · rw [hwg, hnw]
    exact b2
  · rw [hwg]
    exact n2
  · rw [hdg]
    intro p hp
    exact ⟨objData1_mono hlo _ _ (pd p hp).1, objData1_mono hlo _ _ (pd p hp).2⟩
  · rw [hwg]
    intro p hp
    exact ⟨objData1_mono hlo _ _ (pw p hp).1, objData1_mono hlo _ _ (pw p hp).2.1,
      objData1_mono hlo _ _ (pw p hp).2.2⟩

theorem gidInv_extends {u v : Scene} (h : Extends u v) (hg : GidInv u) : GidInv v := by
  obtain ⟨-, -, -, -, -, -, -, -, hgx, -, hk, -⟩ := h
  intro g hmem
  rcases hk g hmem with hold | ⟨-, hlt⟩
  · exact lt_of_lt_of_le (hg g hold) hgx
  · exact hlt

theorem stInv_show (s : Scene) (hs : StInv s) : StInv (show_wall_end_markers s) :=
  ⟨gidInv_extends (extends_show s) hs.1, groupInv_extends (extends_show s) hs.2⟩

theorem stInv_clear (s : Scene) (hs : StInv s) : StInv (clear_wall_end_markers s) :=
  ⟨gidInv_extends (extends_clear s) hs.1, groupInv_extends (extends_clear s) hs.2⟩

theorem stInv_addObj (s : Scene) (o : GObj) (hs : StInv s) : StInv (addObj s o).1 := by
  obtain ⟨hgid, b1, n1, b2, n2, pd, pw⟩ := hs
  have hlo : ∀ g o', alookup g s.objects = some o' →
      alookup g ((addObj s o).1).objects = some o' :=
    fun g o' h => alookup_append_some _ h
  refine ⟨?_, b1, n1, b2, n2, ?_, ?_⟩
  · intro g hmem
    show g < s.nextGid + 1
    have h2 : g ∈ keys s.objects ++ keys [(s.nextGid, o)] := by
      rw [← keys_append]
      exact hmem
    rcases List.mem_append.1 h2 with h | h
    · have := hgid g h
      omega
    · simp only [keys, List.map_cons, List.map_nil, List.mem_singleton] at h
      omega
  · intro p hp
    exact ⟨objData1_mono hlo _ _ (pd p hp).1, objData1_mono hlo _ _ (pd p hp).2⟩
  · intro p hp
    exact ⟨objData1_mono hlo _ _ (pw p hp).1, objData1_mono hlo _ _ (pw p hp).2.1,
      objData1_mono hlo _ _ (pw p hp).2.2⟩

theorem stInv_updObj (s : Scene) (g : Nat) (u : GObj → GObj)
    (hu : ∀ o, (u o).data1 = o.data1) (hs : StInv s) : StInv (updObj s g u) := by
  obtain ⟨hgid, b1, n1, b2, n2, pd, pw⟩ := hs
  have hdata : ∀ x d, objData1 s x = some d → objData1 (updObj s g u) x = some d := by
    intro x d hx
    unfold objData1 getObj at *
    show (alookup x (s.objects.map (updAt g u))).bind _ = _
    rw [alookup_map_updAt]
    by_cases hxg : x = g
    · rw [if_pos hxg]
      rcases ho : alookup x s.objects with _ | o
      · rw [ho] at hx
        cases hx
      · rw [ho] at hx
        show ((some o).map u).bind _ = _
        show (u o).data1 = some d
        rw [hu o]
        exact hx
    · rw [if_neg hxg]
      exact hx
  refine ⟨?_, b1, n1, b2, n2,
    fun p hp => ⟨hdata _ _ (pd p hp).1, hdata _ _ (pd p hp).2⟩,
    fun p hp => ⟨hdata _ _ (pw p hp).1, hdata _ _ (pw p hp).2.1, hdata _ _ (pw p hp).2.2⟩⟩
  intro x hmem
  show x < s.nextGid
  have h2 : x ∈ keys s.objects := by
    rw [← keys_map_updAt g u s.objects]
    exact hmem
  exact hgid x h2

theorem nodup_append_singleton {l : List Nat} {x : Nat}
    (h : l.Nodup) (hx : x ∉ l) : (l ++ [x]).Nodup := by
  rw [List.nodup_append]
  refine ⟨h, List.nodup_singleton x, ?_⟩
  intro a ha hb
  simp only [List.mem_singleton] at hb
  subst hb
  exact hx ha

theorem objData1_eq (v : Scene) (g : Nat) (o : GObj)
    (h : alookup g v.objects = some o) : objData1 v g = o.data1 := by
  unfold objData1 getObj
  rw [h]
  rfl

theorem alookup_fresh2 (l : List (Nat × GObj)) (n : Nat) (h : ∀ g ∈ keys l, g < n)
    (o1 o2 : GObj) :
    alookup n ((l ++ [(n, o1)]) ++ [(n + 1, o2)]) = some o1 ∧
    alookup (n + 1) ((l ++ [(n, o1)]) ++ [(n + 1, o2)]) = some o2 := by
  have h0 : alookup n l = none := alookup_eq_none (fun hm => by have := h _ hm; omega)
  have h1 : alookup (n + 1) l = none := alookup_eq_none (fun hm => by have := h _ hm; omega)
  have e1 : ¬(n = n + 1) := by omega
  have e4 : ¬(n + 1 = n) := by omega
  exact ⟨by simp [alookup_append, h0, h1, alookup, Option.or, e1, e4],
    by simp [alookup_append, h0, h1, alookup, Option.or, e1, e4]⟩

theorem stInv_add_door (s : Scene) (start endp : Point) (hs : StInv s) :
    StInv (add_door s start endp).1 := by
  have hs2 : StInv (addObj (addObj s
      ⟨.plainLine start endp false, some "door", some s.nextDoorId, true⟩).1
      ⟨.doorArc start endp s.doorCcw, some "door", some s.nextDoorId, true⟩).1 :=
    stInv_addObj _ _ (stInv_addObj s _ hs)
  obtain ⟨hgid, b1, n1, b2, n2, pd, pw⟩ := hs2
  have hfresh := alookup_fresh2 s.objects s.nextGid hs.1
    ⟨.plainLine start endp false, some "door", some s.nextDoorId, true⟩
    ⟨.doorArc start endp s.doorCcw, some "door", some s.nextDoorId, true⟩
  refine ⟨hgid, ?_, ?_, b2, n2, ?_, pw⟩
  · intro p hp
    show p.1 < s.nextDoorId + 1
    rcases List.mem_append.1 hp with h | h
    · have := hs.2.1 p h
      omega
    · simp only [List.mem_singleton] at h
      subst h
      show s.nextDoorId < s.nextDoorId + 1
      omega
  · show (keys (s.doorGroups ++ [(s.nextDoorId, (s.nextGid, s.nextGid + 1))])).Nodup
    rw [keys_append]
    refine nodup_append_singleton hs.2.2.1 (fun hmem => ?_)
    simp only [keys, List.mem_map] at hmem
    obtain ⟨p, hp, hpe⟩ := hmem
    have := hs.2.1 p hp
    omega
  · intro p hp
    rcases List.mem_append.1 hp with h | h
    · exact ⟨(pd p h).1, (pd p h).2⟩
    · simp only [List.mem_singleton] at h
      subst h
      exact ⟨objData1_eq _ _ _ hfresh.1, objData1_eq _ _ _ hfresh.2⟩

theorem stInv_add_window (s : Scene) (start endp : Point) (hs : StInv s) :
    StInv (add_window s start endp).1 := by
  simp only [add_window, addObj]
  set o1 : GObj := ⟨.plainLine start endp true, some "window", some s.nextWindowId, true⟩ with ho1
  by_cases hdx : endp.x - start.x = 0
  · simp only [if_pos hdx]
    set o2 : GObj := ⟨.plainLine ⟨start.x - 10/2, start.y⟩ ⟨start.x + 10/2, start.y⟩ false,
      some "window_deco", some s.nextWindowId, false⟩ with ho2
    set o3 : GObj := ⟨.plainLine ⟨endp.x - 10/2, endp.y⟩ ⟨endp.x + 10/2, endp.y⟩ false,
      some "window_deco", some s.nextWindowId, false⟩ with ho3
    have hs3 : StInv (addObj (addObj (addObj s o1).1 o2).1 o3).1 :=
      stInv_addObj _ _ (stInv_addObj _ _ (stInv_addObj s _ hs))
    obtain ⟨hgid, b1, n1, b2, n2, pd, pw⟩ := hs3
    have hfresh := alookup_fresh3 s.objects s.nextGid hs.1 o1 o2 o3
    refine ⟨hgid, b1, n1, ?_, ?_, pd, ?_⟩
    · intro p hp
      show p.1 < s.nextWindowId + 1
      rcases List.mem_append.1 hp with h | h
      · have := hs.2.2.2.1 p h
        omega
      · simp only [List.mem_singleton] at h
        subst h
        show s.nextWindowId < s.nextWindowId + 1
        omega
    · show (keys (s.windowGroups ++
        [(s.nextWindowId, (s.nextGid, s.nextGid + 1, s.nextGid + 2))])).Nodup
      rw [keys_append]
      refine nodup_append_singleton hs.2.2.2.2.1 (fun hmem => ?_)
      simp only [keys, List.mem_map] at hmem
      obtain ⟨p, hp, hpe⟩ := hmem
      have := hs.2.2.2.1 p hp
      omega
    · intro p hp
      rcases List.mem_append.1 hp with h | h
      · exact pw p h
      · simp only [List.mem_singleton] at h
        subst h
        exact ⟨objData1_eq _ _ _ hfresh.1, objData1_eq _ _ _ hfresh.2.1,
          objData1_eq _ _ _ hfresh.2.2⟩
  · simp only [if_neg hdx]
    set o2 : GObj := ⟨.plainLine ⟨start.x, start.y - 10/2⟩ ⟨start.x, start.y + 10/2⟩ false,
      some "window_deco", some s.nextWindowId, false⟩ with ho2
    set o3 : GObj := ⟨.plainLine ⟨endp.x, endp.y - 10/2⟩ ⟨endp.x, endp.y + 10/2⟩ false,
      some "window_deco", some s.nextWindowId, false⟩ with ho3
    have hs3 : StInv (addObj (addObj (addObj s o1).1 o2).1 o3).1 :=
      stInv_addObj _ _ (stInv_addObj _ _ (stInv_addObj s _ hs))
    obtain ⟨hgid, b1, n1, b2, n2, pd, pw⟩ := hs3
    have hfresh := alookup_fresh3 s.objects s.nextGid hs.1 o1 o2 o3
    refine ⟨hgid, b1, n1, ?_, ?_, pd, ?_⟩
    · intro p hp
      show p.1 < s.nextWindowId + 1
      rcases List.mem_append.1 hp with h | h
      · have := hs.2.2.2.1 p h
        omega
      · simp only [List.mem_singleton] at h
        subst h
        show s.nextWindowId < s.nextWindowId + 1
        omega
    · show (keys (s.windowGroups ++
        [(s.nextWindowId, (s.nextGid, s.nextGid + 1, s.nextGid + 2))])).Nodup
      rw [keys_append]
      refine nodup_append_singleton hs.2.2.2.2.1 (fun hmem => ?_)
      simp only [keys, List.mem_map] at hmem
      obtain ⟨p, hp, hpe⟩ := hmem
      have := hs.2.2.2.1 p hp
      omega
    · intro p hp
      rcases List.mem_append.1 hp with h | h
      · exact pw p h
      · simp only [List.mem_singleton] at h
        subst h
        exact ⟨objData1_eq _ _ _ hfresh.1, objData1_eq _ _ _ hfresh.2.1,
          objData1_eq _ _ _ hfresh.2.2⟩

theorem stInv_foldl_removeItem (l : List Nat) (s : Scene) (hs : StInv s) :
    StInv (l.foldl removeItem s) := by
  induction l generalizing s with
  | nil => exact hs
  | cons g t ih => exact ih (removeItem s g) hs

theorem stInv_exit (s : Scene) (hs : StInv s) : StInv (exit_drawing_mode s) := by
  rw [exit_drawing_mode]
  split
  · exact hs
  · exact stInv_show _ (stInv_foldl_removeItem _ s hs)

theorem stInv_left_press (s : Scene) (p : Point) (hit : Bool) (hs : StInv s) :
    StInv (left_press s p hit) := by
  rw [left_press]
  split
  · exact hs
  split
  · split
    · exact stInv_clear _ (stInv_addObj s _ hs)
    · exact stInv_show _ hs
  split
  · split
    · exact stInv_add_door s _ _ hs
    · exact hs
  split
  · split
    · exact stInv_add_window s _ _ hs
    · exact hs
  split
  · exact stInv_addObj s _ hs
  split
  · exact stInv_addObj s _ hs
  split
  · exact stInv_addObj s _ hs
  split
  · exact stInv_addObj s _ hs
  · exact hs

theorem stInv_mouse_move (s : Scene) (p : Point) (hs : StInv s) :
    StInv (mouse_move s p) := by
  rw [mouse_move]
  split
  · exact hs
  · exact stInv_updObj s _ _ (fun o => rfl) hs
  · split
    · exact stInv_updObj _ _ _ (fun o => rfl)
        (stInv_updObj s _ _ (fun o => rfl) hs)
    · exact hs

theorem stInv_toggle (s : Scene) (hs : StInv s) : StInv (toggle_door_swing s) := by
  rw [toggle_door_swing]
  split
  · split
    · split
      · exact stInv_updObj _ _ _ (fun o => rfl) hs
      · exact hs
    · exact hs
  · exact hs

theorem stInv_apop_window (sc : Scene) (k : Nat) (hs : StInv sc) :
    StInv { sc with windowGroups := apop k sc.windowGroups } := by
  obtain ⟨hgid, b1, n1, b2, n2, pd, pw⟩ := hs
  exact ⟨hgid, b1, n1, fun p hp => b2 p (apop_sublist k _ p hp),
    nodup_keys_apop k _ n2, pd, fun p hp => pw p (apop_sublist k _ p hp)⟩

theorem stInv_apop_door (sc : Scene) (k : Nat) (hs : StInv sc) :
    StInv { sc with doorGroups := apop k sc.doorGroups } := by
  obtain ⟨hgid, b1, n1, b2, n2, pd, pw⟩ := hs
  exact ⟨hgid, fun p hp => b1 p (apop_sublist k _ p hp), nodup_keys_apop k _ n1,
    b2, n2, fun p hp => pd p (apop_sublist k _ p hp), pw⟩

theorem stInv_remove_if (st : DelSt) (g : Nat) (hs : StInv st.sc) :
    StInv (remove_if_in_scene st g).sc := by
  rw [remove_if_in_scene]
  split
  · exact hs
  · exact hs

theorem stInv_foldl_condRemove (l : List Nat) (sc : Scene) (hs : StInv sc) :
    StInv (l.foldl (fun sc h => if h ∈ sc.inScene then removeItem sc h else sc) sc) := by
  induction l generalizing sc with
  | nil => exact hs
  | cons h t ih =>
    rw [List.foldl_cons]
    apply ih
    by_cases hm : h ∈ sc.inScene
    · rw [if_pos hm]
      exact hs
    · rw [if_neg hm]
      exact hs

theorem stInv_delete_one (st : DelSt) (g : Nat) (hs : StInv st.sc) :
    StInv (delete_one st g).sc := by
  rw [delete_one]
  dsimp only
  repeat' split
  all_goals
    first
      | exact hs
      | exact stInv_updObj _ _ _ (fun o => rfl) (stInv_foldl_condRemove _ _ hs)
      | (apply stInv_remove_if
         apply stInv_remove_if
         apply stInv_remove_if
         exact stInv_apop_window st.sc _ hs)
      | (apply stInv_remove_if
         apply stInv_remove_if
         exact stInv_apop_door st.sc _ hs)

theorem stInv_foldl_delete (sel : List Nat) (st : DelSt) (hs : StInv st.sc) :
    StInv ((sel.foldl delete_one st).sc) := by
  induction sel generalizing st with
  | nil => exact hs
  | cons g t ih =>
    rw [List.foldl_cons]
    exact ih _ (stInv_delete_one st g hs)

theorem stInv_delete_selected (s : Scene) (sel : List Nat) (hs : StInv s) :
    StInv (delete_selected s sel) := by
  rw [delete_selected]
  split
  · exact hs
  · dsimp only
    by_cases hr : (sel.foldl delete_one ⟨s, [], [], []⟩).removed = []
    · rw [if_pos hr]
      exact stInv_show _ (stInv_foldl_delete sel ⟨s, [], [], []⟩ hs)
    · rw [if_neg hr]
      exact stInv_show _ (stInv_foldl_delete sel ⟨s, [], [], []⟩ hs)

theorem stInv_step (s : Scene) (ev : Event) (hs : StInv s) : StInv (step s ev) := by
  cases ev with
  | setMode l => exact hs
  | leftPress p hit => exact stInv_left_press s p hit hs
  | rightPress =>
    rw [step]
    split
    · exact hs
    · exact stInv_exit s hs
  | move p => exact stInv_mouse_move s p hs
  | escapeKey => exact stInv_exit s hs
  | deleteKey sel => exact stInv_delete_selected s sel hs
  | toggleSwing => exact stInv_toggle s hs

theorem stInv_initScene : StInv initScene := by
  refine ⟨?_, ?_, ?_, ?_, ?_, ?_, ?_⟩
  · intro g hg
    simp [initScene, keys] at hg
  · intro p hp
    simp [initScene] at hp
  · simp [initScene, keys]
  · intro p hp
    simp [initScene] at hp
  · simp [initScene, keys]
  · intro p hp
    simp [initScene] at hp
  · intro p hp
    simp [initScene] at hp

theorem stInv_run (evs : List Event) : StInv (run initScene evs) := by
  suffices h : ∀ (l : List Event) (s : Scene), StInv s → StInv (run s l) from
    h evs initScene stInv_initScene
  intro l
  induction l with
  | nil => exact fun s hs => hs
  | cons e t ih =>
    intro s hs
    exact ih (step s e) (stInv_step s e hs)

/-- Claim C10: in every state reachable from a fresh scene by any sequence
of user events, every registered door group id is below the door counter and
every registered window group id is below the (independent) window counter
— so ids are assigned in strictly increasing order — no id is registered
twice in either map, and every part of a registered composite carries in its
data(1) slot exactly the id under which the composite is registered. -/
theorem group_ids_fresh_invariant (evs : List Event) : GroupInv (run initScene evs) :=
  (stInv_run evs).2

/-- Claim C8 counterexample: toggling the door swing while nothing is being
placed is not a no-op — the persistent flag flips, and a door placed
afterwards gets the opposite swing (arc computed with ccw = false instead of
true, i.e. sweep -90 instead of +90). -/
theorem toggle_swing_persists_cex :
    initScene.curItem = none ∧
    (run initScene [Event.toggleSwing]).doorCcw ≠ initScene.doorCcw ∧
    getObj (run initScene [Event.setMode "Door", Event.leftPress ⟨0, 0⟩ false]) 1 =
      some ⟨GShape.doorArc ⟨0, 0⟩ ⟨0, 0⟩ true, some "door", some 1, true⟩ ∧
    getObj (run initScene [Event.toggleSwing, Event.setMode "Door",
        Event.leftPress ⟨0, 0⟩ false]) 1 =
      some ⟨GShape.doorArc ⟨0, 0⟩ ⟨0, 0⟩ false, some "door", some 1, true⟩ ∧
    sweep_deg true ≠ sweep_deg false := by
  with_unfolding_all decide

end PlanifyHome
